import Mathlib

/-!
Verification of the PackChicken order-fulfillment pipeline.

This file gives a shallow embedding, in Lean, of the core of the PackChicken
repository and proves the behavioural claims made by its specification:

* `src/packchicken/utils/db.py` — the persistent job store (`add_job`,
  `get_next_job`, `update_status`) over a `jobs` table, with JSON payloads
  serialized on insert (`json.dumps`) and parsed on claim (`json.loads`).
* `src/packchicken/workers/job_worker.py` — `build_recipient`,
  `has_min_recipient`, `build_package`, the return-label role swap, the
  per-job processing flow `process_next_job` and the label-consolidation
  step of `process_all_pending_jobs`.
* `src/packchicken/clients/bring_client.py` — `_build_payload`,
  `_total_weight_grams`, `_validate_payload` and `book_consignment`.
* `src/packchicken/utils/pdfmerger.py` — `combine_pdfs`.

Python dict/JSON values are modelled by the inductive type `Json`; Python
truthiness and the `x or y` idiom are modelled explicitly.  Machine floats
from the source are modelled as exact rationals (`ℚ`); `round(x, 3)` is
modelled as decimal round-half-to-even at three decimals.  Wall-clock time
is a rational number of seconds passed in as a parameter.  Fallible steps
return `Option`/`Except`, and external effects (HTTP posts, storefront
fetches, file writes) are counted or modelled through explicit oracles.
-/

namespace PackChicken

/-! ### JSON values (Python dicts/lists as stored in job payloads) -/

/-- A JSON value, the shape of Python data passed to `json.dumps` in
`add_job` and recovered by `json.loads` in `get_next_job`.  Numbers are
modelled as integers (the canonical order payload carries no floats);
object member lists keep insertion order, as Python dicts do. -/
inductive Json where
  | null
  | bool (b : Bool)
  | int (n : Int)
  | str (s : String)
  | arr (xs : List Json)
  | obj (kvs : List (String × Json))

/-- Python truthiness of a JSON value: `None`, `False`, `0`, `""`, `[]`
and `\x7b\x7d` are falsy, everything else truthy. -/
def Json.truthy : Json → Bool
  | .null => false
  | .bool b => b
  | .int n => n != 0
  | .str s => s != ""
  | .arr xs => !xs.isEmpty
  | .obj kvs => !kvs.isEmpty

/-- Truthiness of an optional value (`None` for a missing key is falsy). -/
def truthyO : Option Json → Bool
  | some v => v.truthy
  | none => false

/-- Python `d.get(k)` on a dict: first binding of the key, `None` when the
key is absent.  On non-dict values the model yields `None` (the source only
calls `.get` on dicts). -/
def jget : Json → String → Option Json
  | .obj kvs, k => (kvs.find? (fun kv => kv.1 = k)).map (fun kv => kv.2)
  | _, _ => none

/-- Python `a or b` over two optional values: keep `a` when truthy, else `b`. -/
def pyOr (a b : Option Json) : Option Json :=
  match a with
  | some v => if v.truthy then some v else b
  | none => b

/-- Python `a or d` with a non-`None` default: keep `a` when truthy, else `d`. -/
def pyOrD (a : Option Json) (d : Json) : Json :=
  match a with
  | some v => if v.truthy then v else d
  | none => d

/-- Python `d[k] = v` on a dict: replace the value at the first binding of
the key in place, append the binding when the key is absent. -/
def setKV : List (String × Json) → String → Json → List (String × Json)
  | [], k, v => [(k, v)]
  | kv :: rest, k, v => if kv.1 = k then (k, v) :: rest else kv :: setKV rest k v

/-- Item assignment on a JSON object (non-objects are left unchanged; the
source only assigns into dicts). -/
def jset : Json → String → Json → Json
  | .obj kvs, k, v => .obj (setKV kvs k v)
  | j, _, _ => j

/-! ### Serialization: the model of Python `json.dumps` (default options)

`add_job` stores `json.dumps(order_dict)`; the default options mean
`ensure_ascii=True` (non-ASCII escaped as `\uXXXX`, astral code points as
surrogate pairs) and separators `", "` / `": "`. -/

/-- The double-quote character. -/
def jsonQuote : Char := Char.ofNat 34

/-- The backslash character. -/
def jsonBackslash : Char := Char.ofNat 92

/-- The opening-brace character. -/
def braceL : Char := Char.ofNat 123

/-- The closing-brace character. -/
def braceR : Char := Char.ofNat 125

/-- Decimal/hex digit character, lowercase for values 10–15. -/
def hexDig (d : Nat) : Char := Char.ofNat (if d < 10 then 48 + d else 87 + d)

/-- Four lowercase hex digits of a value below 65536. -/
def hex4 (n : Nat) : List Char :=
  [hexDig (n / 4096 % 16), hexDig (n / 256 % 16), hexDig (n / 16 % 16), hexDig (n % 16)]

/-- The `\uXXXX` escape of a code point; astral code points become a
UTF-16 surrogate pair, as CPython's `json` emits with `ensure_ascii`. -/
def uEscape (n : Nat) : List Char :=
  if n < 65536 then jsonBackslash :: 'u' :: hex4 n
  else
    (jsonBackslash :: 'u' :: hex4 (55296 + (n - 65536) / 1024)) ++
      (jsonBackslash :: 'u' :: hex4 (56320 + (n - 65536) % 1024))

/-- Escape one character of a JSON string the way `json.dumps` does with
its default `ensure_ascii=True`. -/
def escapeChar (c : Char) : List Char :=
  if c = jsonBackslash then [jsonBackslash, jsonBackslash]
  else if c = jsonQuote then [jsonBackslash, jsonQuote]
  else if c = Char.ofNat 8 then [jsonBackslash, 'b']
  else if c = Char.ofNat 12 then [jsonBackslash, 'f']
  else if c = Char.ofNat 10 then [jsonBackslash, 'n']
  else if c = Char.ofNat 13 then [jsonBackslash, 'r']
  else if c = Char.ofNat 9 then [jsonBackslash, 't']
  else if c.toNat < 32 ∨ 126 < c.toNat then uEscape c.toNat
  else [c]

/-- Escape a whole string body. -/
def escapeList : List Char → List Char
  | [] => []
  | c :: rest => escapeChar c ++ escapeList rest

/-- Decimal digits of a natural number, most significant first; the first
argument is structural fuel (any value above `n` gives the digits). -/
def renderNatAux : Nat → Nat → List Char
  | 0, _ => []
  | fuel + 1, n => if n < 10 then [hexDig n] else renderNatAux fuel (n / 10) ++ [hexDig (n % 10)]

/-- Decimal digits of a natural number. -/
def renderNat (n : Nat) : List Char := renderNatAux (n + 1) n

/-- Decimal rendering of an integer, as Python `repr`/`json.dumps` emit it. -/
def renderInt (n : Int) : List Char :=
  if n < 0 then '-' :: renderNat (-n).toNat else renderNat n.toNat

mutual

/-- Characters of `json.dumps` for one value (default separators). -/
def render : Json → List Char
  | .bool false => ['f', 'a', 'l', 's', 'e']
  | .bool true => ['t', 'r', 'u', 'e']
  | .null => ['n', 'u', 'l', 'l']
  | .int n => renderInt n
  | .str s => jsonQuote :: escapeList s.data ++ [jsonQuote]
  | .arr xs => '[' :: renderElems xs
  | .obj kvs => braceL :: renderMembers kvs

/-- Array elements joined by `", "`, with the closing bracket. -/
def renderElems : List Json → List Char
  | [] => [']']
  | [x] => render x ++ [']']
  | x :: y :: rest => render x ++ ',' :: ' ' :: renderElems (y :: rest)

/-- Object members `"key": value` joined by `", "`, with the closing brace. -/
def renderMembers : List (String × Json) → List Char
  | [] => [braceR]
  | [(k, v)] =>
    jsonQuote :: escapeList k.data ++ jsonQuote :: ':' :: ' ' :: render v ++ [braceR]
  | (k, v) :: kv :: rest =>
    jsonQuote :: escapeList k.data ++ jsonQuote :: ':' :: ' ' :: render v ++
      ',' :: ' ' :: renderMembers (kv :: rest)

end

/-- The model of `json.dumps(v)` with default options. -/
def dumps (v : Json) : String := String.mk (render v)

/-! ### Parsing: the model of Python `json.loads` -/

/-- Value of a decimal digit character. -/
def decVal (c : Char) : Option Nat :=
  if 48 ≤ c.toNat ∧ c.toNat ≤ 57 then some (c.toNat - 48) else none

/-- Value of a hex digit character (either case accepted). -/
def hexVal (c : Char) : Option Nat :=
  if 48 ≤ c.toNat ∧ c.toNat ≤ 57 then some (c.toNat - 48)
  else if 97 ≤ c.toNat ∧ c.toNat ≤ 102 then some (c.toNat - 87)
  else if 65 ≤ c.toNat ∧ c.toNat ≤ 70 then some (c.toNat - 55)
  else none

/-- Exactly four hex digits. -/
def parseHex4 : List Char → Option (Nat × List Char)
  | a :: b :: c :: d :: rest =>
    match hexVal a, hexVal b, hexVal c, hexVal d with
    | some va, some vb, some vc, some vd =>
      some (((va * 16 + vb) * 16 + vc) * 16 + vd, rest)
    | _, _, _, _ => none
  | _ => none

/-- Single-character escapes after a backslash. -/
def unescapeChar (e : Char) : Option Char :=
  if e = jsonQuote then some jsonQuote
  else if e = jsonBackslash then some jsonBackslash
  else if e = '/' then some '/'
  else if e = 'b' then some (Char.ofNat 8)
  else if e = 'f' then some (Char.ofNat 12)
  else if e = 'n' then some (Char.ofNat 10)
  else if e = 'r' then some (Char.ofNat 13)
  else if e = 't' then some (Char.ofNat 9)
  else none

/-- Greedy run of decimal digits, accumulating their value. -/
def parseDigits : List Char → Nat → Nat × List Char
  | [], acc => (acc, [])
  | c :: rest, acc =>
    match decVal c with
    | some d => parseDigits rest (acc * 10 + d)
    | none => (acc, c :: rest)

/-- Body of a JSON string after the opening quote, up to and past the
closing quote, decoding escapes and recombining surrogate pairs. -/
def parseStrBody : Nat → List Char → Option (List Char × List Char)
  | 0, _ => none
  | _ + 1, [] => none
  | fuel + 1, c :: rest =>
    if c = jsonQuote then some ([], rest)
    else if c = jsonBackslash then
      match rest with
      | [] => none
      | e :: rest2 =>
        if e = 'u' then
          match parseHex4 rest2 with
          | none => none
          | some (n, rest3) =>
            if 55296 ≤ n ∧ n ≤ 56319 then
              match rest3 with
              | b1 :: u1 :: rest4 =>
                if b1 = jsonBackslash ∧ u1 = 'u' then
                  match parseHex4 rest4 with
                  | none => none
                  | some (m, rest5) =>
                    if 56320 ≤ m ∧ m ≤ 57343 then
                      match parseStrBody fuel rest5 with
                      | none => none
                      | some (cs, r) =>
                        some (Char.ofNat (65536 + (n - 55296) * 1024 + (m - 56320)) :: cs, r)
                    else none
                else none
              | _ => none
            else
              match parseStrBody fuel rest3 with
              | none => none
              | some (cs, r) => some (Char.ofNat n :: cs, r)
        else
          match unescapeChar e with
          | none => none
          | some ch =>
            match parseStrBody fuel rest2 with
            | none => none
            | some (cs, r) => some (ch :: cs, r)
    else
      match parseStrBody fuel rest with
      | none => none
      | some (cs, r) => some (c :: cs, r)

/-- Whitespace skipping between tokens. -/
def skipWs : List Char → List Char
  | [] => []
  | c :: rest =>
    if c = ' ' ∨ c = Char.ofNat 9 ∨ c = Char.ofNat 10 ∨ c = Char.ofNat 13 then skipWs rest
    else c :: rest

/-- Head-is-a-decimal-digit test, used to state where a number may stop. -/
def digitHead : List Char → Bool
  | [] => false
  | c :: _ => (decVal c).isSome

mutual

/-- Recursive-descent parser for one JSON value (structural fuel). -/
def parseJson : Nat → List Char → Option (Json × List Char)
  | 0, _ => none
  | fuel + 1, input =>
    match skipWs input with
    | [] => none
    | c :: rest =>
      if c = 'n' then
        match rest with
        | 'u' :: 'l' :: 'l' :: r => some (.null, r)
        | _ => none
      else if c = 't' then
        match rest with
        | 'r' :: 'u' :: 'e' :: r => some (.bool true, r)
        | _ => none
      else if c = 'f' then
        match rest with
        | 'a' :: 'l' :: 's' :: 'e' :: r => some (.bool false, r)
        | _ => none
      else if c = jsonQuote then
        match parseStrBody (rest.length + 1) rest with
        | none => none
        | some (cs, r) => some (.str (String.mk cs), r)
      else if c = '[' then
        match skipWs rest with
        | ']' :: r => some (.arr [], r)
        | r2 => match parseElems fuel r2 with
          | none => none
          | some (xs, r) => some (.arr xs, r)
      else if c = braceL then
        match skipWs rest with
        | r2 =>
          if r2.head? = some braceR then some (.obj [], r2.tail)
          else match parseMembers fuel r2 with
            | none => none
            | some (kvs, r) => some (.obj kvs, r)
      else if c = '-' then
        if digitHead rest then
          match parseDigits rest 0 with
          | (n, r) => some (.int (-(n : Int)), r)
        else none
      else if (decVal c).isSome then
        match parseDigits (c :: rest) 0 with
        | (n, r) => some (.int (n : Int), r)
      else none

/-- One or more array elements, consuming the closing bracket. -/
def parseElems : Nat → List Char → Option (List Json × List Char)
  | 0, _ => none
  | fuel + 1, input =>
    match parseJson fuel input with
    | none => none
    | some (v, r) =>
      match skipWs r with
      | ',' :: r2 =>
        match parseElems fuel r2 with
        | none => none
        | some (xs, r3) => some (v :: xs, r3)
      | ']' :: r2 => some ([v], r2)
      | _ => none

/-- One or more object members, consuming the closing brace. -/
def parseMembers : Nat → List Char → Option (List (String × Json) × List Char)
  | 0, _ => none
  | fuel + 1, input =>
    match skipWs input with
    | c :: rest =>
      if c = jsonQuote then
        match parseStrBody (rest.length + 1) rest with
        | none => none
        | some (cs, r) =>
          match skipWs r with
          | ':' :: r2 =>
            match parseJson fuel r2 with
            | none => none
            | some (v, r3) =>
              match skipWs r3 with
              | ',' :: r4 =>
                match parseMembers fuel r4 with
                | none => none
                | some (kvs, r5) => some ((String.mk cs, v) :: kvs, r5)
              | r5 =>
                if r5.head? = some braceR then some ([(String.mk cs, v)], r5.tail)
                else none
          | _ => none
      else none
    | [] => none

end

/-- The model of `json.loads`: parse one value and require only trailing
whitespace after it. -/
def loads (s : String) : Option Json :=
  match parseJson (s.data.length + 1) s.data with
  | some (v, rest) => if skipWs rest = [] then some v else none
  | none => none

/-! ### The job store (`src/packchicken/utils/db.py`)

One SQLite table `jobs(id INTEGER PRIMARY KEY AUTOINCREMENT, order_id,
status DEFAULT pending, payload, created_at, updated_at)`.  `AUTOINCREMENT`
assigns strictly increasing ids starting from 1, modelled by `nextId`. -/

/-- One row of the `jobs` table. -/
structure Row where
  id : Nat
  order_id : Option Json
  status : String
  payload : String
  created_at : ℚ
  updated_at : ℚ

/-- The `jobs` table plus the autoincrement counter. -/
structure Store where
  rows : List Row
  nextId : Nat

/-- A freshly initialized database (`init_db` on a new file). -/
def emptyStore : Store := ⟨[], 1⟩

/-- `add_job(order_dict)`: inserts a row with `order_id =
order_dict.get("id")`, `payload = json.dumps(order_dict)`, default status
`pending`, and `created_at = updated_at = time.time()`. -/
def add_job (st : Store) (order_dict : Json) (now : ℚ) : Store :=
  ⟨st.rows ++ [⟨st.nextId, jget order_dict "id", "pending", dumps order_dict, now, now⟩],
    st.nextId + 1⟩

/-- One step of the minimum-id scan over the `jobs` rows. -/
def minPendingStep (acc : Option Row) (r : Row) : Option Row :=
  if r.status = "pending" then
    match acc with
    | none => some r
    | some a => if r.id < a.id then some r else some a
  else acc

/-- `SELECT id, payload FROM jobs WHERE status='pending' ORDER BY id LIMIT 1`:
the pending row with the least id (first such row on equal ids, which
`AUTOINCREMENT` rules out). -/
def minPending (rows : List Row) : Option Row :=
  rows.foldl minPendingStep none

/-- `get_next_job()`: `None` when no row is pending, else the row's id
paired with `json.loads` of its payload (`none` in the second component
models a `loads` exception). -/
def get_next_job (st : Store) : Option (Nat × Option Json) :=
  match minPending st.rows with
  | none => none
  | some r => some (r.id, loads r.payload)

/-- `update_status(job_id, status)`: unconditional update of `status` and
`updated_at` on every row with the given id. -/
def update_status (st : Store) (job_id : Nat) (status : String) (now : ℚ) : Store :=
  ⟨st.rows.map (fun r =>
      if r.id = job_id then ⟨r.id, r.order_id, status, r.payload, r.created_at, now⟩ else r),
    st.nextId⟩

/-- Enqueue a list of orders in sequence (repeated `add_job`). -/
def enqueue_all (now : ℚ) : Store → List Json → Store
  | st, [] => st
  | st, o :: os => enqueue_all now (add_job st o now) os

/-- The rows `enqueue_all` appends, ids counting up from `start`. -/
def mkRows (now : ℚ) (start : Nat) : List Json → List Row
  | [] => []
  | o :: os => ⟨start, jget o "id", "pending", dumps o, now, now⟩ :: mkRows now (start + 1) os

/-- One claim-then-settle loop over the store: repeatedly `get_next_job`,
record the returned pair, and set the returned job's status (the worker
always moves a claimed job off `pending`).  Structural fuel bounds the
number of iterations. -/
def drain : Nat → Store → String → ℚ → List (Nat × Option Json)
  | 0, _, _, _ => []
  | fuel + 1, st, status, now =>
    match get_next_job st with
    | none => []
    | some (i, p) => (i, p) :: drain fuel (update_status st i status now) status now

/-! ### Python scalar helpers used by the worker and the client -/

/-- Python `str(v)` for the scalar values the source interpolates.  The
`repr`-style rendering of containers is not needed by any claim and is
abbreviated. -/
def pyStr : Json → String
  | .null => "None"
  | .bool true => "True"
  | .bool false => "False"
  | .int n => String.mk (renderInt n)
  | .str s => s
  | .arr _ => "[...]"
  | .obj _ => "dict"

/-- `str` of an optional value (`None` prints as `None`). -/
def pyStrOpt : Option Json → String
  | some v => pyStr v
  | none => "None"

/-- Python `str.upper()` (the source applies it to ASCII country codes). -/
def pyUpper (s : String) : String := s.map Char.toUpper

/-- Python `int(v)` on the values the order schema carries: ints, bools and
digit strings; `none` models the `TypeError`/`ValueError` raised otherwise. -/
def pyToInt (v : Json) : Option Int :=
  match v with
  | .int n => some n
  | .bool b => some (if b then 1 else 0)
  | .str s =>
    match s.data with
    | [] => none
    | '-' :: rest =>
      if rest ≠ [] ∧ rest.all (fun c => (decVal c).isSome) then
        some (-((parseDigits rest 0).1 : Int))
      else none
    | l =>
      if l.all (fun c => (decVal c).isSome) then some ((parseDigits l 0).1 : Int) else none
  | _ => none

/-! ### `build_recipient` and `has_min_recipient` (job_worker.py lines 100–129) -/

/-- The inner `_name(addr)`: `addr.get("name") or " ".join(filter(None,
[first_name, last_name])) or ""`. -/
def addrName (addr : Json) : String :=
  let n := jget addr "name"
  if truthyO n then pyStr (n.getD .null)
  else
    String.intercalate " "
      ((([jget addr "first_name", jget addr "last_name"].filterMap id).filter
        Json.truthy).map pyStr)

/-- Name resolution: `order.get("name") or _name(shipping) or _name(billing)
or "Ukjent mottaker"`. -/
def resolveName (order shipping billing : Json) : String :=
  let onm := jget order "name"
  if truthyO onm then pyStr (onm.getD .null)
  else if addrName shipping ≠ "" then addrName shipping
  else if addrName billing ≠ "" then addrName billing
  else "Ukjent mottaker"

/-- Base address selection: shipping when any of `address1`, `city`, `zip`
is truthy, else billing. -/
def baseAddr (shipping billing : Json) : Json :=
  if truthyO (jget shipping "address1") || truthyO (jget shipping "city") ||
      truthyO (jget shipping "zip") then shipping
  else billing

/-- The recipient dict literal of `build_recipient` (lines 112–125), for a
chosen base address and resolved name. -/
def recipientFromBase (order base : Json) (name : String) : Json :=
  .obj [
    ("name", .str name),
    ("addressLine", pyOrD (jget base "address1") (.str "")),
    ("addressLine2", (jget base "address2").getD .null),
    ("postalCode", pyOrD (jget base "zip") (.str "")),
    ("city", pyOrD (jget base "city") (.str "")),
    ("countryCode", .str (pyUpper (pyStr (pyOrD (jget base "country_code") (.str "NO"))))),
    ("reference", (pyOr (jget order "order_number") (jget order "id")).getD .null),
    ("contact", .obj [
      ("name", .str name),
      ("email", (pyOr (jget order "email") (jget base "email")).getD .null),
      ("phoneNumber", (pyOr (jget order "phone") (jget base "phone")).getD .null)])]

/-- `build_recipient(order)`. -/
def build_recipient (order : Json) : Json :=
  let shipping := pyOrD (jget order "shipping_address") (.obj [])
  let billing := pyOrD (jget order "billing_address") (.obj [])
  recipientFromBase order (baseAddr shipping billing) (resolveName order shipping billing)

/-- `has_min_recipient`: `addressLine`, `city` and `postalCode` all truthy. -/
def has_min_recipient (r : Json) : Bool :=
  truthyO (jget r "addressLine") && truthyO (jget r "city") && truthyO (jget r "postalCode")

/-! ### Weight derivation (`build_package`, lines 132–147, and the client's
`_total_weight_grams`, bring_client.py lines 166–173) -/

/-- Round half to even (Python `round`), here applied to exact rationals. -/
def roundHE (x : ℚ) : ℤ :=
  let f := ⌊x⌋
  if x - f < 1 / 2 then f
  else if (1 : ℚ) / 2 < x - f then f + 1
  else if 2 ∣ f then f else f + 1

/-- `round(x, 3)`: decimal rounding at three decimals. -/
def rnd3 (x : ℚ) : ℚ := (roundHE (1000 * x) : ℚ) / 1000

/-- `order.get("line_items") or []` followed by iteration; a non-list value
would raise on iteration (`none`). -/
def line_itemsOf (order : Json) : Option (List Json) :=
  match pyOrD (jget order "line_items") (.arr []) with
  | .arr xs => some xs
  | _ => none

/-- The accumulation loop of `build_package`: `qty = int(li.get("quantity")
or 1)`, `grams = int(li.get("grams") or 0)`, `total += max(0, grams) *
max(1, qty)`. -/
def worker_total_grams (items : List Json) : Option Int :=
  items.foldlM (fun acc li => do
    let q ← pyToInt (pyOrD (jget li "quantity") (.int 1))
    let g ← pyToInt (pyOrD (jget li "grams") (.int 0))
    pure (acc + max 0 g * max 1 q)) 0

/-- The `weightInKg` field `build_package` derives: `weight_kg =
max(DEFAULT, total/1000 if total else DEFAULT)` then `round(weight_kg, 3)`.
The titles/description fields of `build_package` affect no claim and are
omitted. -/
def build_package_weight (defaultKg : ℚ) (order : Json) : Option ℚ := do
  let items ← line_itemsOf order
  let t ← worker_total_grams items
  let w := max defaultKg (if t = 0 then defaultKg else (t : ℚ) / 1000)
  pure (rnd3 w)

/-- The spec sentence for the derived weight taken literally: `max(configured
default, total of grams × quantity across line items, converted to
kilograms, rounded to 3 decimals)` — with no clamping of negative grams and
no floor of one on the quantity.  Stated only to compare against
`build_package_weight`. -/
def spec_claimed_weight (defaultKg : ℚ) (order : Json) : Option ℚ := do
  let items ← line_itemsOf order
  let t ← items.foldlM (fun acc li => do
    let g ← pyToInt ((jget li "grams").getD (.int 0))
    let q ← pyToInt ((jget li "quantity").getD (.int 1))
    pure (acc + g * q)) (0 : Int)
  pure (max defaultKg (rnd3 ((t : ℚ) / 1000)))

/-- `BringClient._total_weight_grams`: `grams = int(li.get("grams") or 0)`,
`qty = int(li.get("quantity") or 1)`, `total += max(0, grams) * max(1, qty)`. -/
def client_total_weight_grams (items : List Json) : Option Int :=
  items.foldlM (fun acc li => do
    let g ← pyToInt (pyOrD (jget li "grams") (.int 0))
    let q ← pyToInt (pyOrD (jget li "quantity") (.int 1))
    pure (acc + max 0 g * max 1 q)) 0

/-! ### Worker environment, sender/return identities and the role swap
(job_worker.py lines 57–98 and 203–231) -/

/-- The `BRING_*` environment variables the worker reads (a value of `none`
models an unset variable; `os.getenv` returns the raw string otherwise). -/
structure WorkerEnv where
  BRING_SENDER_NAME : Option String
  BRING_SENDER_ADDRESS : Option String
  BRING_SENDER_ADDRESS2 : Option String
  BRING_SENDER_POSTAL : Option String
  BRING_SENDER_CITY : Option String
  BRING_SENDER_COUNTRY : Option String
  BRING_SENDER_REF : Option String
  BRING_SENDER_CONTACT : Option String
  BRING_SENDER_EMAIL : Option String
  BRING_SENDER_PHONE : Option String
  BRING_RETURN_NAME : Option String
  BRING_RETURN_ADDRESS : Option String
  BRING_RETURN_ADDRESS2 : Option String
  BRING_RETURN_POSTAL : Option String
  BRING_RETURN_CITY : Option String
  BRING_RETURN_COUNTRY : Option String
  BRING_RETURN_CONTACT : Option String
  BRING_RETURN_EMAIL : Option String
  BRING_RETURN_PHONE : Option String

/-- `os.getenv(k, default)` as a JSON string. -/
def envD (v : Option String) (d : String) : Json := .str (v.getD d)

/-- `os.getenv(k)` as a JSON value (`None` when unset). -/
def envO : Option String → Json
  | some s => .str s
  | none => .null

/-- `os.getenv(k)` as an optional JSON value, for use in `or` chains. -/
def envOpt (v : Option String) : Option Json := v.map .str

/-- `sender_from_env()`. -/
def sender_from_env (e : WorkerEnv) : Json :=
  .obj [
    ("name", envD e.BRING_SENDER_NAME "PackChicken Sender"),
    ("addressLine", envD e.BRING_SENDER_ADDRESS "Testveien 2"),
    ("addressLine2", envO e.BRING_SENDER_ADDRESS2),
    ("postalCode", envD e.BRING_SENDER_POSTAL "0150"),
    ("city", envD e.BRING_SENDER_CITY "Oslo"),
    ("countryCode", envD e.BRING_SENDER_COUNTRY "NO"),
    ("reference", envO e.BRING_SENDER_REF),
    ("contact", .obj [
      ("name", envD e.BRING_SENDER_CONTACT "Sender"),
      ("email", envO e.BRING_SENDER_EMAIL),
      ("phoneNumber", envO e.BRING_SENDER_PHONE)])]

/-- `return_to_from_env()` (note: no `reference` key, unlike the sender). -/
def return_to_from_env (e : WorkerEnv) : Json :=
  .obj [
    ("name", envD e.BRING_RETURN_NAME "PackChicken Return"),
    ("addressLine", envD e.BRING_RETURN_ADDRESS "Alf Bjerckes vei 29"),
    ("addressLine2", envD e.BRING_RETURN_ADDRESS2 ""),
    ("postalCode", envD e.BRING_RETURN_POSTAL "0582"),
    ("city", envD e.BRING_RETURN_CITY "OSLO"),
    ("countryCode", envD e.BRING_RETURN_COUNTRY "NO"),
    ("contact", .obj [
      ("name", .str (e.BRING_RETURN_CONTACT.getD (e.BRING_RETURN_NAME.getD "PackChicken Return"))),
      ("email", envO e.BRING_RETURN_EMAIL),
      ("phoneNumber", envO e.BRING_RETURN_PHONE)])]

/-- Lines 204–231 of `process_next_job`: the `(sender_payload,
recipient_payload, return_to_payload)` triple passed on to the booking
call.  Forward labels use the configured sender on both the sender and the
`return_to` slots; return labels swap the customer recipient into the
sender slot, put the configured return identity into the recipient slot
with its contact enriched by the fallback chain of lines 218–228, and pass
`return_to = None`. -/
def swap_parties (e : WorkerEnv) (recipient : Json) (return_label : Bool) :
    Json × Json × Option Json :=
  let sender_env := sender_from_env e
  let return_to_env := return_to_from_env e
  if return_label then
    let rp0 := if return_to_env.truthy then return_to_env else sender_env
    let contact := pyOrD (jget rp0 "contact") (.obj [])
    let senderContact := pyOrD (jget sender_env "contact") (.obj [])
    let recContact := (jget recipient "contact").getD (.obj [])
    let newContact : Json := .obj [
      ("name",
        (pyOr (jget contact "name") (pyOr (jget rp0 "name") (jget senderContact "name"))).getD
          .null),
      ("email",
        (pyOr (jget contact "email") (pyOr (envOpt e.BRING_RETURN_EMAIL)
          (pyOr (jget senderContact "email") (jget recContact "email")))).getD .null),
      ("phoneNumber",
        (pyOr (jget contact "phoneNumber") (pyOr (envOpt e.BRING_RETURN_PHONE)
          (pyOr (jget senderContact "phoneNumber") (jget recContact "phoneNumber")))).getD
          .null)]
    (recipient, jset rp0 "contact" newContact, none)
  else
    (sender_env, recipient, some sender_env)

/-- Modelled from the spec: the worker calls
`BringClient.build_booking_payload`, a method missing from the source tree;
per the spec (§3, §4.3) the booking payload's parties block carries the
sender, the recipient, and a `returnTo` entry that is present exactly when
a `return_to` party is passed (omitted on `None`). -/
structure BookingParties where
  sender : Json
  recipient : Json
  returnTo : Option Json

/-- Modelled from the spec: assembly of the parties block of the booking
payload from the worker's `(sender, recipient, return_to)` arguments. -/
def build_booking_parties (sender recipient : Json) (return_to : Option Json) :
    BookingParties :=
  ⟨sender, recipient, return_to⟩

/-! ### Shipping times (job_worker.py line 203, bring_client.py line 108) -/

/-- Worker path: `(datetime.now(timezone.utc) + timedelta(minutes=10))
.replace(microsecond=0)` — now plus 600 seconds, truncated to whole
seconds; modelled on the epoch-seconds axis. -/
def worker_shipping_epoch (now : ℚ) : ℤ := ⌊now + 600⌋

/-- Client path: `(datetime.utcnow() + timedelta(hours=1))
.strftime("%Y-%m-%dT%H:%M:%S")` — now plus 3600 seconds, truncated to
whole seconds. -/
def client_shipping_epoch (now : ℚ) : ℤ := ⌊now + 3600⌋

/-- The spec sentence taken literally: shipping time is always now plus 10
minutes, truncated to whole seconds, on every build path. -/
def spec_shipping_epoch (now : ℚ) : ℤ := ⌊now + 600⌋

/-! ### `process_next_job` (job_worker.py lines 168–311)

Line 25 of `job_worker.py` imports `BringClient` and `BringError` from
`packchicken.clients.bring_client`, and `BringError` is not a module-level
name of `bring_client.py` (see `bringClientModuleNames`): loading the
worker module raises `ImportError`, so in the shipped program none of the
functions of `job_worker.py` ever exists or runs.  `job_worker_loads` and
`run_worker` below model that program-level behavior.

`process_next_job` below is therefore the denotation of the function BODY
as written, under the counterfactual that the line-25 import succeeded; it
is used to analyze the unreachable code, never as the program's behavior.
The external collaborators are oracles: `bringOk` is whether
`BringClient()` construction succeeds (`require_bring`), `shopifyOk`
whether `ShopifyClient()` construction succeeds, and `getOrder` the
storefront's response to `get_order` (`none` models an exception or no
data, both handled identically by the `except` at lines 197–198).

The body also calls `bring.build_booking_payload`, `bring.book_shipment`
and `bring._headers`; none of these is a `BringClient` attribute (see
`bringClientMethodNames`).  The first such call, `build_booking_payload`
at line 233, would raise `AttributeError`, which the generic `except
Exception` handler at lines 306–310 turns into a recorded error plus a
`failed` status.  No carrier booking call could occur, so the model counts
`bookCalls` and it is identically zero. -/

/-- Collaborator oracles for one `process_next_job` invocation. -/
structure WorkerCtx where
  bringOk : Bool
  shopifyOk : Bool
  getOrder : Json → Option Json

/-- Observable outcome of one `process_next_job` invocation. -/
structure WorkerResult where
  store : Store
  processed : Bool
  crashed : Bool
  errors : List String
  fetchCount : Nat
  bookCalls : Nat

/-- The error text of the `RuntimeError` raised at line 202. -/
def addr_err_msg : String :=
  "Manglende adressefelt (addressLine/city/postalCode) for mottaker"

/-- Python single-quote character (U+0027), for building exception texts
verbatim. -/
def sq : String := String.mk [Char.ofNat 39]

/-- The `str(exc)` of the `AttributeError` that the call at line 233 to the
undefined `build_booking_payload` would raise: CPython renders the class
and attribute names wrapped in single quotes and the text carries no
exception-class prefix. -/
def attr_err_msg : String :=
  sq ++ "BringClient" ++ sq ++ " object has no attribute " ++ sq ++
    "build_booking_payload" ++ sq

/-- The `ValueError` text of `Settings.require_bring` (config.py). -/
def config_err_msg : String :=
  "Missing Bring config: set BRING_API_KEY and BRING_API_UID"

/-- The message the generic handler at lines 306–309 records:
`f"Feil under behandling av jobb \x7bjob_data.get('id')\x7d: \x7bexc\x7d"`. -/
def job_err_msg (jd : Json) (exc : String) : String :=
  "Feil under behandling av jobb " ++ pyStrOpt (jget jd "id") ++ ": " ++ exc

/-- Lines 189–198: when the recipient fails the minimum-address gate and a
Shopify client exists, fetch the order once (only when an order id is
truthy) and swap in the fetched `order` field when present.  Returns the
(possibly replaced) order and the number of storefront fetches attempted. -/
def refetch_order (ctx : WorkerCtx) (order : Json) : Json × Nat :=
  if !(has_min_recipient (build_recipient order)) && ctx.shopifyOk then
    let oid := pyOr (jget order "id") (jget order "order_id")
    match oid with
    | some v =>
      if v.truthy then
        match ctx.getOrder v with
        | some full =>
          if full.truthy && truthyO (jget full "order") then
            ((jget full "order").getD order, 1)
          else (order, 1)
        | none => (order, 1)
      else (order, 0)
    | none => (order, 0)
  else (order, 0)

/-- `process_next_job(return_label)` — the function body's denotation
under a counterfactual successful import (the shipped program never
reaches it; `run_worker` is the program-level entry): claim the lowest-id
pending job; on none, return `False`.  Otherwise construct the clients,
rebuild the recipient with at most one storefront re-fetch, and either
fail the job at the minimum-address gate (line 202) or fail it at the call
to the undefined `build_booking_payload` (line 233); both paths append one
recorded error and set the row `failed`.  A payload that `json.loads`
cannot parse raises inside `get_next_job`, outside the `try`, and crashes
the call. -/
def process_next_job (ctx : WorkerCtx) (return_label : Bool) (now : ℚ) (st : Store) :
    WorkerResult :=
  match get_next_job st with
  | none => ⟨st, false, false, [], 0, 0⟩
  | some (_, none) => ⟨st, false, true, [], 0, 0⟩
  | some (job_id, some jd) =>
    if !ctx.bringOk then
      ⟨update_status st job_id "failed" now, true, false, [job_err_msg jd config_err_msg], 0, 0⟩
    else
      let order0 := pyOrD (jget jd "order") jd
      let fetched := refetch_order ctx order0
      let recipient := build_recipient fetched.1
      if !(has_min_recipient recipient) then
        ⟨update_status st job_id "failed" now, true, false,
          [job_err_msg jd addr_err_msg], fetched.2, 0⟩
      else
        ⟨update_status st job_id "failed" now, true, false,
          [job_err_msg jd attr_err_msg], fetched.2, 0⟩

/-- The attributes `bring_client.py` defines on `BringClient`. -/
def bringClientMethodNames : List String :=
  ["__init__", "book_consignment", "_build_payload", "_total_weight_grams",
    "_extract_tracking", "_validate_payload"]

/-- The module-level names `bring_client.py` defines. -/
def bringClientModuleNames : List String := ["BringResult", "BringClient", "log"]

/-- The names `job_worker.py` imports from `bring_client` (line 25). -/
def jobWorkerBringImports : List String := ["BringClient", "BringError"]

/-- The `BringClient` attributes `process_next_job` invokes (lines 233,
243 and 258). -/
def jobWorkerBringCalls : List String :=
  ["build_booking_payload", "book_shipment", "_headers"]

/-- Python module loading of `job_worker.py`: the `from ... import` at
line 25 binds each imported name only when `bring_client` defines it at
module level; an absent name raises `ImportError` and the importing module
— with every function in it, `process_next_job` included — never comes
into existence. -/
def job_worker_loads : Bool :=
  jobWorkerBringImports.all (fun nm => bringClientModuleNames.contains nm)

/-- The exception class of the failed line-25 import.  CPython's message
text (cannot import name ... from ...) is elided; only the class name is
carried, since no surviving code observes the text. -/
def import_err_msg : String := "ImportError"

/-- What the program actually does when asked to process the next job:
first the worker module must load (the import at line 25), and only then
would the function body (`process_next_job`) execute.  Because
`job_worker_loads` is `false`, every run fails with `ImportError` before
any job is claimed, marked, or booked. -/
def run_worker (ctx : WorkerCtx) (return_label : Bool) (now : ℚ) (st : Store) :
    Except String WorkerResult :=
  if job_worker_loads then .ok (process_next_job ctx return_label now st)
  else .error import_err_msg

/-! ### The Bring client (`bring_client.py`) -/

/-- The settings `BringClient` uses when building and validating payloads. -/
structure BringSettings where
  BRING_CUSTOMER_NUMBER : String
  BRING_PRODUCT : String
  BRING_CLIENT_URL : String
  SENDER_NAME : String
  SENDER_ADDRESS : String
  SENDER_POSTCODE : String
  SENDER_CITY : String
  SENDER_COUNTRY : String

/-- `dimensions` of a package. -/
structure BBDims where
  lengthInCm : Int
  widthInCm : Int
  heightInCm : Int

/-- One `packages` entry. -/
structure BBPackage where
  weightInKg : ℚ
  dimensions : Option BBDims

/-- A `parties.sender` / `parties.recipient` entry; optional fields model
keys that may be missing or `None`-like in a dict payload. -/
structure BBParty where
  name : Option String
  addressLine : Option String
  postalCode : Option String
  city : Option String
  countryCode : Option String
  emailAddress : Option String
  mobileNumber : Option String
  phoneNumber : Option String

/-- `product` of a consignment. -/
structure BBProduct where
  id : Option String

/-- One `consignments` entry of the booking payload. -/
structure BBConsignment where
  shippingDateTime : ℤ
  product : Option BBProduct
  customerNumber : String
  packages : List BBPackage
  sender : BBParty
  recipient : BBParty
  orderNumber : String
  consignmentNumber : String

/-- The booking payload `_build_payload` posts. -/
structure BBPayload where
  schemaVersion : Int
  language : String
  clientUrl : String
  customerNumber : Option String
  consignments : List BBConsignment

/-- Truthiness of an optional string (empty or missing is falsy). -/
def truthyS : Option String → Bool
  | some s => s != ""
  | none => false

/-- One `assert cond, msg`: pass, or raise with the message. -/
def checkB (cond : Bool) (msg : String) : Except String Unit :=
  if cond then .ok () else .error msg

/-- The `for key in (...)` loop of `_validate_payload`, lines 215–217:
for each of the five keys, assert it on the sender, then on the
recipient. -/
def checkPartyFields (s r : BBParty) : Except String Unit := do
  checkB (truthyS s.name) "sender.name missing"
  checkB (truthyS r.name) "recipient.name missing"
  checkB (truthyS s.addressLine) "sender.addressLine missing"
  checkB (truthyS r.addressLine) "recipient.addressLine missing"
  checkB (truthyS s.postalCode) "sender.postalCode missing"
  checkB (truthyS r.postalCode) "recipient.postalCode missing"
  checkB (truthyS s.city) "sender.city missing"
  checkB (truthyS r.city) "recipient.city missing"
  checkB (truthyS s.countryCode) "sender.countryCode missing"
  checkB (truthyS r.countryCode) "recipient.countryCode missing"

/-- The `product`/`packages` part of `_validate_payload`, lines 207–212:
assert `product` exists with a truthy id, take `packages[0]` (an empty
list raises `IndexError("list index out of range")`, caught by the same
handler), assert positive weight and present dimensions. -/
def checkConsignmentBody (cons : BBConsignment) : Except String Unit := do
  match cons.product with
  | none => Except.error "product.id missing"
  | some pr => checkB (truthyS pr.id) "product.id missing"
  match cons.packages with
  | [] => Except.error "list index out of range"
  | pkg :: _ => do
    checkB (decide ((0 : ℚ) < pkg.weightInKg)) "weightInKg must be > 0"
    checkB pkg.dimensions.isSome "dimensions missing"
    checkPartyFields cons.sender cons.recipient

/-- `_validate_payload` (lines 190–219): the sequential `assert` checks,
each failure wrapped into the quoted message.  The `KeyError` branch for a
missing `parties` block cannot arise here because the payload type carries
both parties structurally. -/
def _validate_payload (p : BBPayload) : Except String Unit := do
  checkB (truthyS p.customerNumber) "customerNumber missing"
  checkB (p.schemaVersion == 1) "schemaVersion must be 1"
  match p.consignments with
  | [] => Except.error "no consignments"
  | cons :: _ => checkConsignmentBody cons

/-- The dict construction of `_build_payload` (lines 87–162) before the
validation call; `none` models a non-`ValueError` exception from the
`int()` conversions inside `_total_weight_grams`. -/
def _build_payload_raw (s : BringSettings) (now : ℚ) (order : Json) : Option BBPayload := do
  let ship_addr := pyOrD (jget order "shipping_address") (.obj [])
  let customer := pyOrD (jget order "customer") (.obj [])
  let email := pyStr (pyOrD (pyOr (jget order "email") (jget customer "email"))
    (.str "test@example.com"))
  let first := (pyStr (pyOrD (pyOr (jget ship_addr "first_name") (jget customer "first_name"))
    (.str "Test"))).trim
  let last := (pyStr (pyOrD (pyOr (jget ship_addr "last_name") (jget customer "last_name"))
    (.str "Customer"))).trim
  let phone0 := pyStr (pyOrD (pyOr (jget ship_addr "phone") (jget customer "phone"))
    (.str "00000000"))
  let address1 := pyStr (pyOrD (jget ship_addr "address1") (.str "Testveien 2"))
  let address2 := pyStr (pyOrD (jget ship_addr "address2") (.str ""))
  let postal := pyStr (pyOrD (jget ship_addr "zip") (.str "0150"))
  let city := pyStr (pyOrD (jget ship_addr "city") (.str "Oslo"))
  let country := pyUpper (pyStr (pyOrD (jget ship_addr "country_code") (.str "NO")))
  let digits := phone0.data.filter Char.isDigit
  let phone := if 8 ≤ digits.length then String.mk digits else "00000000"
  let items ← match jget order "line_items" with
    | none => some []
    | some (.arr xs) => some xs
    | some _ => none
  let wg ← client_total_weight_grams items
  let weight_grams := if wg = 0 then 500 else wg
  let weight_kg := max (1 / 100 : ℚ) (rnd3 ((weight_grams : ℚ) / 1000))
  pure
    { schemaVersion := 1
      language := "no"
      clientUrl := s.BRING_CLIENT_URL
      customerNumber := some s.BRING_CUSTOMER_NUMBER
      consignments := [{
        shippingDateTime := client_shipping_epoch now
        product := some ⟨some s.BRING_PRODUCT⟩
        customerNumber := s.BRING_CUSTOMER_NUMBER
        packages := [⟨weight_kg, some ⟨35, 25, 10⟩⟩]
        sender := ⟨some s.SENDER_NAME, some s.SENDER_ADDRESS, some s.SENDER_POSTCODE,
          some s.SENDER_CITY, some s.SENDER_COUNTRY, none, none, none⟩
        recipient := ⟨some (first ++ " " ++ last).trim, some (address1 ++ " " ++ address2).trim,
          some postal, some city, some country, some email, some phone, some phone⟩
        orderNumber := pyStr (pyOrD (pyOr (jget order "name") (jget order "id")) (.str ""))
        consignmentNumber := pyStr (pyOrD (jget order "id") (.str "")) }] }

/-- `_build_payload`: construction followed by `_validate_payload`, whose
failure becomes `ValueError(f"Invalid Bring payload: \x7be\x7d")`. -/
def _build_payload (s : BringSettings) (now : ℚ) (order : Json) : Except String BBPayload :=
  match _build_payload_raw s now order with
  | none => .error "TypeError"
  | some p =>
    match _validate_payload p with
    | .ok _ => .ok p
    | .error e => .error ("Invalid Bring payload: " ++ e)

/-- What `book_consignment` did before returning. -/
inductive BCOutcome where
  | dryRun (payload : BBPayload)
  | posted (payload : BBPayload)

/-- `book_consignment(order, dry_run)` (lines 56–83): build (which
validates), then either return the payload (dry run) or POST it once to
the booking endpoint.  The second component counts HTTP requests issued;
response decoding does not influence it and is left to the caller's
oracle. -/
def book_consignment (s : BringSettings) (now : ℚ) (order : Json) (dry_run : Bool) :
    Except String BCOutcome × Nat :=
  match _build_payload s now order with
  | .error e => (.error e, 0)
  | .ok p => if dry_run then (.ok (.dryRun p), 0) else (.ok (.posted p), 1)

/-! ### Label consolidation (`combine_pdfs`, pdfmerger.py lines 11–25, and
`process_all_pending_jobs` lines 348–360) -/

/-- A flat file system: path to document, a document being its page list. -/
abbrev FS := List (String × List String)

/-- Content of a path, when the file exists. -/
def fsLookup (fs : FS) (p : String) : Option (List String) :=
  (fs.find? (fun e => e.1 = p)).map (fun e => e.2)

/-- `open(path, "wb")` + write: overwrite an existing file or create it. -/
def fsWrite (fs : FS) (p : String) (doc : List String) : FS :=
  if (fs.find? (fun e => e.1 = p)).isSome then
    fs.map (fun e => if e.1 = p then (p, doc) else e)
  else fs ++ [(p, doc)]

/-- `Path.unlink(missing_ok=True)`: drop every entry at the path. -/
def fsDelete : FS → String → FS
  | [], _ => []
  | e :: rest, p => if e.1 = p then fsDelete rest p else e :: fsDelete rest p

/-- The pages `combine_pdfs` gathers: each existing input's pages in input
order (missing inputs are skipped by the `continue` at line 18). -/
def gatherPages (fs : FS) (inputs : List String) : List String :=
  inputs.foldr (fun p acc =>
    match fsLookup fs p with
    | some doc => doc ++ acc
    | none => acc) []

/-- `combine_pdfs(input_paths, output_path)` when the write succeeds. -/
def combine_pdfs (fs : FS) (inputs : List String) (out : String) : FS :=
  fsWrite fs out (gatherPages fs inputs)

/-- Lines 348–360 of `process_all_pending_jobs`: run `combine_pdfs` over
the downloaded labels inside `try`; on success delete each downloaded
file, on a raised write (`writeOk = false`) fall to the `except` that only
logs — the downloaded files are untouched in that case (a partially
written merged file is not modelled; the claim concerns the label files). -/
def consolidate_labels (fs : FS) (labels : List String) (out : String) (writeOk : Bool) : FS :=
  if writeOk then labels.foldl fsDelete (combine_pdfs fs labels out)
  else fs

/-! ### Concrete fixtures used by witnesses and counterexamples -/

/-- The spec's weight example: line items with grams `[500, 250]` and
quantities `[2, 1]`. -/
def exampleOrderC5 : Json :=
  .obj [("line_items", .arr [
    .obj [("grams", .int 500), ("quantity", .int 2)],
    .obj [("grams", .int 250), ("quantity", .int 1)]])]

/-- A line item with `grams = 2000` and `quantity = 0`: `build_package`
floors the quantity at one, the spec formula multiplies by zero. -/
def cexOrderC5 : Json :=
  .obj [("line_items", .arr [.obj [("grams", .int 2000), ("quantity", .int 0)]])]

/-- An order with a truthy `name` and complete shipping address. -/
def exampleOrderC6 : Json :=
  .obj [("name", .str "Ola Nordmann"), ("email", .str "ola@example.no"),
    ("shipping_address", .obj [("address1", .str "Gate 1"), ("city", .str "Oslo"),
      ("zip", .str "0150"), ("country_code", .str "no")]),
    ("order_number", .int 1001), ("id", .int 555)]

/-- A worker environment whose return identity has full contact data. -/
def exampleEnvC4 : WorkerEnv :=
  ⟨none, none, none, none, none, none, none, none, none, none,
    none, none, none, none, none, none, none, some "retur@example.no", some "99887766"⟩

/-- A worker environment with `BRING_RETURN_EMAIL` unset and a sender
email set: the contact patching of lines 218–228 then fills the booked
return recipient's email from the sender, so the booked recipient differs
from the configured return identity. -/
def cexEnvC4 : WorkerEnv :=
  ⟨none, none, none, none, none, none, none, none,
    some "sender@packchicken.example", none,
    none, none, none, none, none, none, none, none, none⟩

/-- Default-valued Bring settings (config.py defaults). -/
def defaultBringSettings : BringSettings :=
  ⟨"5", "SERVICEPAKKE", "http://localhost:8000", "PackChicken Sender", "Testveien 2",
    "0150", "Oslo", "NO"⟩

/-- A store holding one pending job whose payload is the empty order. -/
def pendingEmptyStore : Store := ⟨[⟨1, none, "pending", "\x7b\x7d", 0, 0⟩], 2⟩

/-- Oracles for a worker whose clients construct fine but whose storefront
returns nothing. -/
def okCtx : WorkerCtx := ⟨true, true, fun _ => none⟩

/-- Serialized order with a complete shipping address. -/
def goodAddrPayload : String :=
  "\x7b\"shipping_address\": \x7b\"address1\": \"Gate 1\", \"city\": \"Oslo\", \"zip\": \"0150\"\x7d\x7d"

/-- The parsed form of `goodAddrPayload`. -/
def goodAddrJson : Json :=
  .obj [("shipping_address", .obj [("address1", .str "Gate 1"), ("city", .str "Oslo"),
    ("zip", .str "0150")])]

/-- A store holding one pending job with a complete shipping address. -/
def pendingGoodStore : Store := ⟨[⟨1, none, "pending", goodAddrPayload, 0, 0⟩], 2⟩

/-- Settings with an empty customer number, which the pre-flight
validation must reject. -/
def cexSettingsC7 : BringSettings := ⟨"", "SERVICEPAKKE", "u", "S", "A", "P", "C", "NO"⟩

/-- The payload `_build_payload` constructs from an empty order under
`cexSettingsC7` (weight 0 grams falls back to 500 g, then the 0.01 kg
floor and rounding). -/
def cexPayloadC7 : BBPayload :=
  { schemaVersion := 1
    language := "no"
    clientUrl := "u"
    customerNumber := some ""
    consignments := [{
      shippingDateTime := client_shipping_epoch 0
      product := some ⟨some "SERVICEPAKKE"⟩
      customerNumber := ""
      packages := [⟨max (1 / 100 : ℚ) (rnd3 (((500 : Int) : ℚ) / 1000)), some ⟨35, 25, 10⟩⟩]
      sender := ⟨some "S", some "A", some "P", some "C", some "NO", none, none, none⟩
      recipient := ⟨some ("Test".trim ++ " " ++ "Customer".trim).trim,
        some ("Testveien 2" ++ " " ++ "").trim, some "0150", some "Oslo", some (pyUpper "NO"),
        some "test@example.com", some "00000000", some "00000000"⟩
      orderNumber := ""
      consignmentNumber := "" }] }

/-- The `shippingDateTime` stamps of the consignments `_build_payload`
constructs (observable projection used to state the shipping-time claim). -/
def raw_shipping_times (s : BringSettings) (now : ℚ) (order : Json) : Option (List ℤ) :=
  (_build_payload_raw s now order).map (fun p => p.consignments.map (fun c => c.shippingDateTime))

end PackChicken

/-! ## Theorems -/

namespace PackChicken

/-! ### Helper lemmas on rounding -/

/-- Round-half-even of an integer is that integer. -/
theorem roundHE_intCast (k : ℤ) : roundHE (k : ℚ) = k := by
  simp [roundHE]

/-- `round(x, 3)` fixes every rational with at most three decimals. -/
theorem rnd3_den_one (x : ℚ) (h : (1000 * x).den = 1) : rnd3 x = x := by
  have h2 : ((1000 * x).num : ℚ) = 1000 * x := by
    rw [← Rat.den_eq_one_iff]
    exact h
  rw [rnd3, ← h2, roundHE_intCast, h2]
  ring

/-- Every successful `_build_payload_raw` carries exactly one consignment,
stamped with the client shipping time. -/
theorem _build_payload_raw_shipping (s : BringSettings) (now : ℚ) (order : Json)
    (p : BBPayload) (h : _build_payload_raw s now order = some p) :
    p.consignments.map (fun c => c.shippingDateTime) = [client_shipping_epoch now] := by
  unfold _build_payload_raw at h
  split at h
  case h_3 => simp at h
  case h_1 =>
    simp only [Option.bind_eq_bind, Option.some_bind] at h
    cases h2 : client_total_weight_grams [] with
    | none => rw [h2] at h; simp at h
    | some wg =>
      rw [h2] at h
      simp only [Option.some_bind, pure, Option.some.injEq] at h
      subst h
      rfl
  case h_2 xs _ =>
    simp only [Option.bind_eq_bind, Option.some_bind] at h
    cases h2 : client_total_weight_grams xs with
    | none => rw [h2] at h; simp at h
    | some wg =>
      rw [h2] at h
      simp only [Option.some_bind, pure, Option.some.injEq] at h
      subst h
      rfl

/-! ### Claim C5 — weight derivation -/

/-- Claim C5, counterexample: the claim's formula `max(default, total of
grams × quantity in kilograms, rounded)` disagrees with `build_package` on
a line item with `grams = 2000, quantity = 0` — the code floors the
quantity at one (`max(1, qty)`, and Python `int(0 or 1)` is already `1`)
and so derives 2 kg, while the claimed formula derives the 1.1 kg default. -/
theorem C5_weight_counterexample :
    build_package_weight (11 / 10) cexOrderC5 = some 2 ∧
    spec_claimed_weight (11 / 10) cexOrderC5 = some (11 / 10) ∧
    build_package_weight (11 / 10) cexOrderC5 ≠ spec_claimed_weight (11 / 10) cexOrderC5 := by
  have hcode : build_package_weight (11 / 10) cexOrderC5 = some 2 := by
    have h1 : line_itemsOf cexOrderC5 =
        some [Json.obj [("grams", .int 2000), ("quantity", .int 0)]] := by
      simp [line_itemsOf, cexOrderC5, pyOrD, jget, Json.truthy]
    have h2 : worker_total_grams [Json.obj [("grams", .int 2000), ("quantity", .int 0)]] =
        some 2000 := by
      simp [worker_total_grams, List.foldlM, pyToInt, pyOrD, jget, Json.truthy]
    rw [build_package_weight, h1]
    simp only [Option.bind_eq_bind, Option.some_bind, h2]
    have h3 : max (11 / 10 : ℚ) ((2000 : ℚ) / 1000) = 2 := by norm_num
    simp only [pure]
    norm_num [h3]
    rw [rnd3_den_one 2 (by norm_num)]
  have hspec : spec_claimed_weight (11 / 10) cexOrderC5 = some (11 / 10) := by
    have h1 : line_itemsOf cexOrderC5 =
        some [Json.obj [("grams", .int 2000), ("quantity", .int 0)]] := by
      simp [line_itemsOf, cexOrderC5, pyOrD, jget, Json.truthy]
    rw [spec_claimed_weight, h1]
    simp [List.foldlM, pyToInt, jget, pure]
    have h0 : rnd3 0 = 0 := by
      have hk := roundHE_intCast 0
      simp at hk
      simp [rnd3, hk]
    rw [h0]
    norm_num
  refine ⟨hcode, hspec, ?_⟩
  rw [hcode, hspec]
  intro hcontra
  have := Option.some.inj hcontra
  norm_num at this

/-- Claim C5, amended: the derived `weightInKg` equals the maximum of the
configured default and the total of `max(0, grams) × max(1, quantity)`
grams over the line items (a falsy quantity counting as one), converted to
kilograms — whenever the default has at most three decimals, so the final
`round(_, 3)` is the identity; and on the spec's example (grams
`[500, 250]`, quantities `[2, 1]`, default 1.1 kg) the derived weight is
1.25 kg. -/
theorem C5_weight (d : ℚ) (order : Json) (items : List Json) (t : Int)
    (hd : (1000 * d).den = 1)
    (hitems : line_itemsOf order = some items)
    (ht : worker_total_grams items = some t) :
    build_package_weight d order = some (max d (if t = 0 then d else (t : ℚ) / 1000)) ∧
    build_package_weight (11 / 10) exampleOrderC5 = some (5 / 4) := by
  constructor
  · rw [build_package_weight, hitems]
    simp only [Option.bind_eq_bind, Option.some_bind, ht, pure, Option.some.injEq]
    have hden : (1000 * max d (if t = 0 then d else (t : ℚ) / 1000)).den = 1 := by
      rcases max_choice d (if t = 0 then d else (t : ℚ) / 1000) with hm | hm <;> rw [hm]
      · exact hd
      · split
        · exact hd
        · rw [show (1000 : ℚ) * ((t : ℚ) / 1000) = ((t : ℤ) : ℚ) by push_cast; ring]
          exact Rat.den_intCast t
    rw [rnd3_den_one _ hden]
  · have h1 : line_itemsOf exampleOrderC5 =
        some [Json.obj [("grams", .int 500), ("quantity", .int 2)],
          .obj [("grams", .int 250), ("quantity", .int 1)]] := by
      simp [line_itemsOf, exampleOrderC5, pyOrD, jget, Json.truthy]
    have h2 : worker_total_grams [Json.obj [("grams", .int 500), ("quantity", .int 2)],
        .obj [("grams", .int 250), ("quantity", .int 1)]] = some 1250 := by
      simp [worker_total_grams, List.foldlM, pyToInt, pyOrD, jget, Json.truthy]
    rw [build_package_weight, h1]
    simp only [Option.bind_eq_bind, Option.some_bind, h2, pure, Option.some.injEq]
    norm_num
    exact rnd3_den_one (5 / 4) (by norm_num)

/-- Claim C5 witness: the amended theorem applied to the spec's own
example order with default 1.1 kg. -/
theorem C5_weight_witness :
    build_package_weight (11 / 10) exampleOrderC5 =
      some (max (11 / 10) (if (1250 : Int) = 0 then (11 / 10 : ℚ) else ((1250 : Int) : ℚ) / 1000)) :=
  (C5_weight (11 / 10) exampleOrderC5
    [Json.obj [("grams", .int 500), ("quantity", .int 2)],
      .obj [("grams", .int 250), ("quantity", .int 1)]] 1250
    (by norm_num)
    (by simp [line_itemsOf, exampleOrderC5, pyOrD, jget, Json.truthy])
    (by simp [worker_total_grams, List.foldlM, pyToInt, pyOrD, jget, Json.truthy])).1

/-! ### Job store lemmas (shared by the queue claims) -/

theorem minPendingStep_none_iff (acc : Option Row) (r : Row) :
    minPendingStep acc r = none ↔ (acc = none ∧ r.status ≠ "pending") := by
  rw [minPendingStep.eq_def]
  by_cases hp : r.status = "pending"
  · rw [if_pos hp]
    cases acc with
    | none => simp [hp]
    | some b =>
      by_cases hid : r.id < b.id <;> simp [hp, hid]
  · rw [if_neg hp]
    simp [hp]

theorem minPending_fold_none (rows : List Row) :
    ∀ acc, rows.foldl minPendingStep acc = none ↔
      (acc = none ∧ ∀ r ∈ rows, r.status ≠ "pending") := by
  induction rows with
  | nil => intro acc; simp
  | cons a rest ih =>
    intro acc
    rw [List.foldl_cons, ih (minPendingStep acc a)]
    rw [minPendingStep_none_iff]
    constructor
    · rintro ⟨⟨h1, h2⟩, h3⟩
      exact ⟨h1, by
        intro r hr
        rcases List.mem_cons.mp hr with h | h
        · subst h; exact h2
        · exact h3 r h⟩
    · rintro ⟨h1, h2⟩
      exact ⟨⟨h1, h2 a (List.mem_cons_self a rest)⟩,
        fun r hr => h2 r (List.mem_cons_of_mem a hr)⟩

theorem minPending_fold_sound (rows : List Row) :
    ∀ (acc : Option Row) (r : Row), rows.foldl minPendingStep acc = some r →
      acc = some r ∨ (r ∈ rows ∧ r.status = "pending") := by
  induction rows with
  | nil => intro acc r h; exact Or.inl h
  | cons a rest ih =>
    intro acc r h
    rcases ih (minPendingStep acc a) r h with h1 | h1
    · rw [minPendingStep.eq_def] at h1
      by_cases hpend : a.status = "pending"
      · rw [if_pos hpend] at h1
        cases acc with
        | none =>
          have : a = r := by simpa using h1
          exact Or.inr ⟨this ▸ List.mem_cons_self a rest, this ▸ hpend⟩
        | some b =>
          by_cases hid : a.id < b.id
          · have : a = r := by simpa [hid] using h1
            exact Or.inr ⟨this ▸ List.mem_cons_self a rest, this ▸ hpend⟩
          · have : b = r := by simpa [hid] using h1
            exact Or.inl (by rw [this])
      · rw [if_neg hpend] at h1
        exact Or.inl h1
    · exact Or.inr ⟨List.mem_cons_of_mem a h1.1, h1.2⟩

theorem minPending_fold_min (rows : List Row) :
    ∀ (acc : Option Row) (r : Row), rows.foldl minPendingStep acc = some r →
      (∀ b, acc = some b → r.id ≤ b.id) ∧
      (∀ r2 ∈ rows, r2.status = "pending" → r.id ≤ r2.id) := by
  induction rows with
  | nil =>
    intro acc r h
    refine ⟨fun b hb => ?_, fun r2 h2 => absurd h2 (List.not_mem_nil r2)⟩
    have h2 : acc = some r := h
    rw [hb] at h2
    injection h2 with e
    rw [e]
  | cons a rest ih =>
    intro acc r h
    obtain ⟨ih1, ih2⟩ := ih (minPendingStep acc a) r h
    have hstep : ∀ b, acc = some b → ∀ c, minPendingStep acc a = some c → c.id ≤ b.id := by
      intro b hb c hc
      rw [hb, minPendingStep.eq_def] at hc
      by_cases hpend : a.status = "pending"
      · rw [if_pos hpend] at hc
        by_cases hid : a.id < b.id
        · have he : a = c := by simpa [hid] using hc
          rw [← he]
          omega
        · have he : b = c := by simpa [hid] using hc
          rw [← he]
      · rw [if_neg hpend] at hc
        injection hc with e
        rw [e]
    constructor
    · intro b hb
      cases hc : minPendingStep acc a with
      | none =>
        rw [(minPendingStep_none_iff acc a).mp hc |>.1] at hb
        exact absurd hb (by simp)
      | some c =>
        exact le_trans (ih1 c hc) (hstep b hb c hc)
    · intro r2 h2 hp2
      rcases List.mem_cons.mp h2 with he | he
      · subst he
        cases hacc : acc with
        | none =>
          have hc : minPendingStep none r2 = some r2 := by
            simp [minPendingStep, hp2]
          rw [hacc] at ih1
          exact ih1 r2 hc
        | some b =>
          rw [hacc] at ih1
          by_cases hid : r2.id < b.id
          · have hc : minPendingStep (some b) r2 = some r2 := by
              simp [minPendingStep, hp2, hid]
            exact ih1 r2 hc
          · have hc : minPendingStep (some b) r2 = some b := by
              simp [minPendingStep, hp2, hid]
            have := ih1 b hc
            omega
      · exact ih2 r2 he hp2

theorem get_next_job_none_iff (st : Store) :
    get_next_job st = none ↔ ∀ r ∈ st.rows, r.status ≠ "pending" := by
  rw [get_next_job, minPending]
  constructor
  · intro h
    cases hm : st.rows.foldl minPendingStep none with
    | none => exact ((minPending_fold_none st.rows none).mp hm).2
    | some r => rw [hm] at h; simp at h
  · intro h
    rw [(minPending_fold_none st.rows none).mpr ⟨rfl, h⟩]

theorem get_next_job_some (st : Store) (i : Nat) (p : Option Json)
    (h : get_next_job st = some (i, p)) :
    ∃ r ∈ st.rows, r.id = i ∧ r.status = "pending" ∧ p = loads r.payload ∧
      ∀ r2 ∈ st.rows, r2.status = "pending" → i ≤ r2.id := by
  rw [get_next_job] at h
  cases hm : minPending st.rows with
  | none => rw [hm] at h; exact absurd h (by simp)
  | some r =>
    rw [hm] at h
    injection h with e
    have hsound := minPending_fold_sound st.rows none r hm
    have hmin := minPending_fold_min st.rows none r hm
    rcases hsound with hs | hs
    · exact absurd hs (by simp)
    · simp only [Prod.mk.injEq] at e
      obtain ⟨e1, e2⟩ := e
      refine ⟨r, hs.1, e1, hs.2, e2.symm, ?_⟩
      intro r2 h2 hp2
      rw [← e1]
      exact hmin.2 r2 h2 hp2

theorem update_status_id_status (st : Store) (j : Nat) (s : String) (t : ℚ) :
    ∀ r ∈ (update_status st j s t).rows, (r.id = j → r.status = s) := by
  intro r hr
  rw [update_status] at hr
  simp only [List.mem_map] at hr
  obtain ⟨r0, hr0, hmap⟩ := hr
  intro hid
  by_cases h0 : r0.id = j
  · rw [if_pos h0] at hmap
    rw [← hmap]
  · rw [if_neg h0] at hmap
    rw [← hmap] at hid
    exact absurd hid h0

theorem update_status_preserves (st : Store) (j : Nat) (s : String) (t : ℚ) :
    ∀ r ∈ (update_status st j s t).rows, r.status ≠ s →
      r ∈ st.rows := by
  intro r hr hs
  rw [update_status] at hr
  simp only [List.mem_map] at hr
  obtain ⟨r0, hr0, hmap⟩ := hr
  by_cases h0 : r0.id = j
  · rw [if_pos h0] at hmap
    rw [← hmap] at hs
    simp at hs
  · rw [if_neg h0] at hmap
    rw [← hmap]
    exact hr0

/-! ### Claim C6 — recipient resolution -/

/-- The decimal digits of a natural number are never empty. -/
theorem renderNat_ne_nil (n : Nat) : renderNat n ≠ [] := by
  rw [renderNat, renderNatAux]
  split
  · simp
  · simp

/-- `str` of a truthy value is a non-empty string. -/
theorem pyStr_ne_of_truthy (v : Json) (h : v.truthy = true) : pyStr v ≠ "" := by
  cases v with
  | null => simp [Json.truthy] at h
  | bool b => cases b <;> simp_all [Json.truthy, pyStr]
  | int n =>
    rw [pyStr, renderInt]
    split
    · intro hc
      have := congrArg String.data hc
      simp at this
    · intro hc
      have := congrArg String.data hc
      simp at this
      exact renderNat_ne_nil _ this
  | str s => simpa [Json.truthy, pyStr] using h
  | arr xs => simp [pyStr]
  | obj kvs => simp [pyStr]

/-- Claim C6: `build_recipient` resolves the base address from shipping,
falling back to billing exactly when shipping has none of `address1`,
`city`, `zip` truthy; the recipient's `name` is the resolved name, which
prefers a truthy `order.name`, ends at the `"Ukjent mottaker"` sentinel
exactly when the order and both addresses yield no name, and is never
empty — so the builder is total and never fails for lack of a name. -/
theorem C6_build_recipient (order : Json) :
    build_recipient order =
      recipientFromBase order
        (if truthyO (jget (pyOrD (jget order "shipping_address") (.obj [])) "address1") ||
            truthyO (jget (pyOrD (jget order "shipping_address") (.obj [])) "city") ||
            truthyO (jget (pyOrD (jget order "shipping_address") (.obj [])) "zip") then
          pyOrD (jget order "shipping_address") (.obj [])
        else pyOrD (jget order "billing_address") (.obj []))
        (resolveName order (pyOrD (jget order "shipping_address") (.obj []))
          (pyOrD (jget order "billing_address") (.obj []))) ∧
    jget (build_recipient order) "name" =
      some (.str (resolveName order (pyOrD (jget order "shipping_address") (.obj []))
        (pyOrD (jget order "billing_address") (.obj [])))) ∧
    (∀ shipping billing : Json,
      truthyO (jget order "name") = true →
        resolveName order shipping billing = pyStr ((jget order "name").getD .null)) ∧
    (∀ shipping billing : Json,
      truthyO (jget order "name") = false → addrName shipping = "" → addrName billing = "" →
        resolveName order shipping billing = "Ukjent mottaker") ∧
    (∀ shipping billing : Json, resolveName order shipping billing ≠ "") := by
  refine ⟨?_, ?_, ?_, ?_, ?_⟩
  · rw [build_recipient, baseAddr]
  · rw [build_recipient, recipientFromBase, jget]
    simp [List.find?]
  · intro shipping billing h
    rw [resolveName]
    simp [h]
  · intro shipping billing h h1 h2
    rw [resolveName]
    simp [h, h1, h2]
  · intro shipping billing
    rw [resolveName]
    split
    · rename_i h
      cases ho : jget order "name" with
      | none => rw [ho] at h; simp [truthyO] at h
      | some v =>
        rw [ho] at h
        simp only [truthyO] at h
        simp only [ho, Option.getD_some]
        exact pyStr_ne_of_truthy v h
    · split
      · assumption
      · split
        · assumption
        · simp

/-- Claim C6 witness: the name-preference conjunct applied to a concrete
order whose `name` is truthy. -/
theorem C6_build_recipient_witness :
    resolveName exampleOrderC6 (.obj []) (.obj []) =
      pyStr ((jget exampleOrderC6 "name").getD .null) :=
  (C6_build_recipient exampleOrderC6).2.2.1 (.obj []) (.obj [])
    (by simp [exampleOrderC6, jget, truthyO, Json.truthy])

/-! ### Claim C7 — pre-flight payload validation -/

/-- `checkB` passes exactly when the asserted condition holds. -/
theorem checkB_ok (c : Bool) (m : String) : checkB c m = .ok () ↔ c = true := by
  cases c <;> simp [checkB]

/-- Sequencing of two checks passes exactly when both do. -/
theorem seqOk (x y : Except String Unit) :
    (x >>= fun _ => y) = .ok () ↔ (x = .ok () ∧ y = .ok ()) := by
  cases x with
  | error e => simp [Bind.bind, Except.bind]
  | ok u => cases u; simp [Bind.bind, Except.bind]

/-- The sender/recipient key loop passes exactly when all ten fields are
truthy. -/
theorem checkPartyFields_ok (s r : BBParty) :
    checkPartyFields s r = .ok () ↔
      (truthyS s.name = true ∧ truthyS r.name = true ∧
        truthyS s.addressLine = true ∧ truthyS r.addressLine = true ∧
        truthyS s.postalCode = true ∧ truthyS r.postalCode = true ∧
        truthyS s.city = true ∧ truthyS r.city = true ∧
        truthyS s.countryCode = true ∧ truthyS r.countryCode = true) := by
  simp [checkPartyFields, seqOk, checkB_ok, and_assoc]

/-- The per-consignment checks pass exactly when the product id is truthy,
a first package exists with positive weight and dimensions, and both
parties pass the field loop. -/
theorem checkConsignmentBody_ok (cons : BBConsignment) :
    checkConsignmentBody cons = .ok () ↔
      ((∃ pr, cons.product = some pr ∧ truthyS pr.id = true) ∧
        ∃ pk pks, cons.packages = pk :: pks ∧ (0 : ℚ) < pk.weightInKg ∧
          pk.dimensions.isSome = true ∧
          checkPartyFields cons.sender cons.recipient = .ok ()) := by
  unfold checkConsignmentBody
  cases hpr : cons.product with
  | none => simp [seqOk, hpr]
  | some pr =>
    cases hpk : cons.packages with
    | nil => simp [seqOk, checkB_ok, hpk]
    | cons pk pks => simp [seqOk, checkB_ok, hpk, and_assoc]

/-- `_validate_payload` passes exactly when every documented pre-flight
condition holds of the payload. -/
theorem validate_ok_iff (p : BBPayload) :
    _validate_payload p = .ok () ↔
      (truthyS p.customerNumber = true ∧ p.schemaVersion = 1 ∧
        ∃ c cs, p.consignments = c :: cs ∧
          (∃ pr, c.product = some pr ∧ truthyS pr.id = true) ∧
          ∃ pk pks, c.packages = pk :: pks ∧ (0 : ℚ) < pk.weightInKg ∧
            pk.dimensions.isSome = true ∧
            truthyS c.sender.name = true ∧ truthyS c.recipient.name = true ∧
            truthyS c.sender.addressLine = true ∧ truthyS c.recipient.addressLine = true ∧
            truthyS c.sender.postalCode = true ∧ truthyS c.recipient.postalCode = true ∧
            truthyS c.sender.city = true ∧ truthyS c.recipient.city = true ∧
            truthyS c.sender.countryCode = true ∧ truthyS c.recipient.countryCode = true) := by
  unfold _validate_payload
  cases hc : p.consignments with
  | nil => simp [seqOk, checkB_ok, hc]
  | cons c cs =>
    simp only [seqOk, checkB_ok, hc, checkConsignmentBody_ok, checkPartyFields_ok]
    constructor
    · rintro ⟨h1, h2, ⟨pr, hpr, h3⟩, pk, pks, hpk, hrest⟩
      exact ⟨h1, by simpa using h2, c, cs, rfl, ⟨pr, hpr, h3⟩, pk, pks, hpk, hrest.1,
        hrest.2.1, hrest.2.2⟩
    · rintro ⟨h1, h2, c2, cs2, hcc, hbody, pk, pks, hpk, hrest⟩
      injection hcc with e1 e2
      subst e1
      subst e2
      exact ⟨h1, by simpa using h2, hbody, pk, pks, hpk, hrest.1, hrest.2.1, hrest.2.2⟩

/-- Claim C7: a payload failing any pre-flight check makes
`book_consignment` raise the wrapped `ValueError` before any HTTP request
(the request counter stays zero); a request is only ever issued for a
payload that passed the validation; and the validation passes exactly when
the documented conditions hold — non-empty customer number, schema version
1, a first consignment with truthy product id, a first package of positive
weight with dimensions, and all five fields on sender and recipient. -/
theorem C7_preflight (s : BringSettings) (now : ℚ) (order : Json) (dry : Bool)
    (p : BBPayload) (e : String)
    (hp : _build_payload_raw s now order = some p)
    (hv : _validate_payload p = .error e) :
    book_consignment s now order dry = (.error ("Invalid Bring payload: " ++ e), 0) ∧
    (∀ s2 now2 order2 dry2, (book_consignment s2 now2 order2 dry2).2 ≠ 0 →
      ∃ p2, _build_payload_raw s2 now2 order2 = some p2 ∧ _validate_payload p2 = .ok ()) ∧
    (∀ p2 : BBPayload, _validate_payload p2 = .ok () ↔
      (truthyS p2.customerNumber = true ∧ p2.schemaVersion = 1 ∧
        ∃ c cs, p2.consignments = c :: cs ∧
          (∃ pr, c.product = some pr ∧ truthyS pr.id = true) ∧
          ∃ pk pks, c.packages = pk :: pks ∧ (0 : ℚ) < pk.weightInKg ∧
            pk.dimensions.isSome = true ∧
            truthyS c.sender.name = true ∧ truthyS c.recipient.name = true ∧
            truthyS c.sender.addressLine = true ∧ truthyS c.recipient.addressLine = true ∧
            truthyS c.sender.postalCode = true ∧ truthyS c.recipient.postalCode = true ∧
            truthyS c.sender.city = true ∧ truthyS c.recipient.city = true ∧
            truthyS c.sender.countryCode = true ∧
            truthyS c.recipient.countryCode = true)) := by
  refine ⟨?_, ?_, validate_ok_iff⟩
  · rw [book_consignment, _build_payload, hp]
    dsimp only
    rw [hv]
  · intro s2 now2 order2 dry2 h
    cases hraw : _build_payload_raw s2 now2 order2 with
    | none =>
      exfalso
      rw [book_consignment, _build_payload, hraw] at h
      simp at h
    | some p3 =>
      cases hval : _validate_payload p3 with
      | error e3 =>
        exfalso
        rw [book_consignment, _build_payload, hraw] at h
        dsimp only at h
        rw [hval] at h
        simp at h
      | ok u =>
        cases u
        exact ⟨p3, rfl, hval⟩

/-- Claim C7 witness: under settings with an empty customer number, the
booking call fails with the wrapped `customerNumber missing` error and
issues no HTTP request. -/
theorem C7_preflight_witness :
    book_consignment cexSettingsC7 0 (.obj []) true =
      (.error ("Invalid Bring payload: " ++ "customerNumber missing"), 0) :=
  (C7_preflight cexSettingsC7 0 (.obj []) true cexPayloadC7 "customerNumber missing"
    (by rfl) (by rfl)).1

/-! ### Claims C2 and C3 — the worker's processing of one job -/

/-- Every store `process_next_job` leaves behind is either untouched or
one row-set updated to `failed`. -/
theorem process_next_job_store (ctx : WorkerCtx) (rl : Bool) (now : ℚ) (st : Store) :
    (process_next_job ctx rl now st).store = st ∨
    ∃ j, (process_next_job ctx rl now st).store = update_status st j "failed" now := by
  rw [process_next_job]
  cases hg : get_next_job st with
  | none => exact Or.inl rfl
  | some pr =>
    obtain ⟨j, p⟩ := pr
    cases p with
    | none => exact Or.inl rfl
    | some jd =>
      cases hbb : ctx.bringOk with
      | false => exact Or.inr ⟨j, rfl⟩
      | true =>
        simp only [hbb, Bool.not_true, Bool.false_eq_true, if_false]
        by_cases hgate : has_min_recipient (build_recipient
            (refetch_order ctx (pyOrD (jget jd "order") jd)).1) = true
        · simp only [hgate, Bool.not_true, Bool.false_eq_true, if_false]
          exact Or.inr ⟨j, rfl⟩
        · simp only [Bool.not_eq_true] at hgate
          simp only [hgate, Bool.not_false, if_true]
          exact Or.inr ⟨j, rfl⟩

/-- The storefront re-fetch of lines 189–198 happens at most once, and
only when the first recipient failed the gate, a Shopify client exists,
and the order id chain is truthy. -/
theorem refetch_order_spec (ctx2 : WorkerCtx) (order2 : Json) :
    (refetch_order ctx2 order2).2 ≤ 1 ∧
    ((refetch_order ctx2 order2).2 = 1 → ctx2.shopifyOk = true ∧
      has_min_recipient (build_recipient order2) = false ∧
      truthyO (pyOr (jget order2 "id") (jget order2 "order_id")) = true) := by
  rw [refetch_order.eq_def]
  split
  case isTrue hcond =>
    simp only [Bool.and_eq_true, Bool.not_eq_true'] at hcond
    cases ho : pyOr (jget order2 "id") (jget order2 "order_id") with
    | none => simp
    | some v =>
      cases hv : v.truthy with
      | false => simp [hv]
      | true =>
        cases hg : ctx2.getOrder v with
        | none => simp [hv, hg, truthyO, hcond]
        | some full => simp [hv, hg, truthyO, hcond, apply_ite]
  case isFalse hcond => simp

theorem job_worker_loads_eq : job_worker_loads = false := by decide

theorem run_worker_import_error (ctx : WorkerCtx) (rl : Bool) (now : ℚ) (st : Store) :
    run_worker ctx rl now st = .error import_err_msg := by
  rw [run_worker, job_worker_loads_eq]
  rfl

/-- Claim C2, counterexample: a pending job with an incomplete recipient
address is never claimed, never re-fetched for, and never marked `failed`
by the shipped program — loading `job_worker.py` raises `ImportError` at
line 25 (`BringError` is not defined in `bring_client.py`), so
`process_next_job` does not exist and the job stays `pending` with no
recorded error. -/
theorem C2_import_counterexample :
    job_worker_loads = false ∧
    run_worker okCtx false 0 pendingEmptyStore = .error import_err_msg ∧
    ∀ r ∈ pendingEmptyStore.rows, r.status = "pending" := by
  refine ⟨job_worker_loads_eq,
    run_worker_import_error okCtx false 0 pendingEmptyStore, ?_⟩
  intro r hr
  simp only [pendingEmptyStore, List.mem_singleton] at hr
  rw [hr]

/-- Claim C2, amended: `job_worker.py` cannot be loaded — line 25 imports
`BringError`, which `bring_client.py` does not define — so the shipped
program raises `ImportError` before any job is claimed, re-fetched for,
marked `failed` or booked.  The re-fetch-once/fail path of lines 187–202
is a property of the never-executed function body: under a counterfactual
successful import, a claimed job whose recipient is still incomplete after
the at-most-one storefront re-fetch would be marked `failed` with the
descriptive address error recorded, zero booking calls, and the job never
claimable again; a fetch would happen only when the first recipient was
incomplete, a Shopify client exists, and a truthy order id is available. -/
theorem C2_single_refetch (ctx : WorkerCtx) (rl : Bool) (now : ℚ) (st : Store)
    (job_id : Nat) (jd : Json)
    (hjob : get_next_job st = some (job_id, some jd))
    (hbring : ctx.bringOk = true)
    (hgate : has_min_recipient (build_recipient
      (refetch_order ctx (pyOrD (jget jd "order") jd)).1) = false) :
    job_worker_loads = false ∧
    (∀ (ctx2 : WorkerCtx) (rl2 : Bool) (now2 : ℚ) (st2 : Store),
      run_worker ctx2 rl2 now2 st2 = .error import_err_msg) ∧
    process_next_job ctx rl now st =
      ⟨update_status st job_id "failed" now, true, false, [job_err_msg jd addr_err_msg],
        (refetch_order ctx (pyOrD (jget jd "order") jd)).2, 0⟩ ∧
    (∀ p2, get_next_job (process_next_job ctx rl now st).store ≠ some (job_id, p2)) ∧
    (∀ (ctx2 : WorkerCtx) (order2 : Json), (refetch_order ctx2 order2).2 ≤ 1 ∧
      ((refetch_order ctx2 order2).2 = 1 →
        ctx2.shopifyOk = true ∧
        has_min_recipient (build_recipient order2) = false ∧
        truthyO (pyOr (jget order2 "id") (jget order2 "order_id")) = true)) := by
  have hmain : process_next_job ctx rl now st =
      ⟨update_status st job_id "failed" now, true, false, [job_err_msg jd addr_err_msg],
        (refetch_order ctx (pyOrD (jget jd "order") jd)).2, 0⟩ := by
    rw [process_next_job, hjob]
    simp only [hbring, Bool.not_true, Bool.false_eq_true, if_false, hgate,
      Bool.not_false, if_true]
  refine ⟨job_worker_loads_eq, run_worker_import_error, hmain, ?_, ?_⟩
  · intro p2 hcontra
    rw [hmain] at hcontra
    obtain ⟨r, hr, hid, hpend, -, -⟩ :=
      get_next_job_some (update_status st job_id "failed" now) job_id p2 hcontra
    have h2 := update_status_id_status st job_id "failed" now r hr hid
    rw [h2] at hpend
    exact absurd hpend (by decide)
  · exact fun ctx2 order2 => refetch_order_spec ctx2 order2

/-- Claim C2 witness: the shipped program fails with `ImportError` on a
store holding a pending empty-payload job, and the unreachable body — were
the import to succeed — would fail that job with the address error and no
booking call. -/
theorem C2_single_refetch_witness :
    run_worker okCtx false 0 pendingEmptyStore = .error import_err_msg ∧
    process_next_job okCtx false 0 pendingEmptyStore =
      ⟨update_status pendingEmptyStore 1 "failed" 0, true, false,
        [job_err_msg (.obj []) addr_err_msg],
        (refetch_order okCtx (pyOrD (jget (.obj []) "order") (.obj []))).2, 0⟩ := by
  have h := C2_single_refetch okCtx false 0 pendingEmptyStore 1 (.obj [])
    (by rfl) (by rfl) (by rfl)
  exact ⟨h.2.1 okCtx false 0 pendingEmptyStore, h.2.2.1⟩

/-- Claim C3, counterexample: a pending job whose recipient passes the
minimum-address gate is NOT marked `failed` with an appended error by the
shipped program — `job_worker.py` itself fails to import (line 25 names
`BringError`, which `bring_client.py` never defines), so the asserted
per-job attribute-error path never runs and the job stays `pending`. -/
theorem C3_import_counterexample :
    ("BringError" ∈ jobWorkerBringImports ∧ "BringError" ∉ bringClientModuleNames) ∧
    job_worker_loads = false ∧
    run_worker okCtx false 0 pendingGoodStore = .error import_err_msg ∧
    ∀ r ∈ pendingGoodStore.rows, r.status = "pending" := by
  refine ⟨by decide, job_worker_loads_eq,
    run_worker_import_error okCtx false 0 pendingGoodStore, ?_⟩
  intro r hr
  simp only [pendingGoodStore, List.mem_singleton] at hr
  rw [hr]

/-- Claim C3, amended: no job can ever reach status `done` through the
worker, but not by the claim's per-job mechanism.  Loading `job_worker.py`
raises `ImportError` at line 25 (`BringError` is imported but is not a
module-level name of `bring_client.py`), so `process_next_job` never
executes and no run of the worker returns a result at all; the
`BringClient` attributes the unreachable body would call
(`build_booking_payload`, `book_shipment`, `_headers`) are likewise
undefined, and even under a counterfactual successful import the body
never sets any row to `done`. -/
theorem C3_worker_never_done (ctx : WorkerCtx) (rl : Bool) (now : ℚ) (st : Store) :
    job_worker_loads = false ∧
    ("BringError" ∈ jobWorkerBringImports ∧ "BringError" ∉ bringClientModuleNames ∧
      ∀ nm ∈ jobWorkerBringCalls, nm ∉ bringClientMethodNames) ∧
    run_worker ctx rl now st = .error import_err_msg ∧
    (∀ res : WorkerResult, run_worker ctx rl now st ≠ .ok res) ∧
    (∀ (ctx2 : WorkerCtx) (rl2 : Bool) (now2 : ℚ) (st2 : Store) (r : Row),
      r ∈ (process_next_job ctx2 rl2 now2 st2).store.rows → r.status = "done" →
        r ∈ st2.rows) := by
  refine ⟨job_worker_loads_eq, by decide,
    run_worker_import_error ctx rl now st, ?_, ?_⟩
  · intro res hcontra
    rw [run_worker_import_error ctx rl now st] at hcontra
    exact absurd hcontra (by simp)
  · intro ctx2 rl2 now2 st2 r hr hdone
    rcases process_next_job_store ctx2 rl2 now2 st2 with hs | ⟨j, hs⟩
    · rw [hs] at hr
      exact hr
    · rw [hs] at hr
      refine update_status_preserves st2 j "failed" now2 r hr ?_
      rw [hdone]
      decide

/-! ### Claim C8 — label consolidation -/

/-- One lookup step. -/
theorem fsLookup_cons (e : String × List String) (rest : FS) (q : String) :
    fsLookup (e :: rest) q = if e.1 = q then some e.2 else fsLookup rest q := by
  by_cases he : e.1 = q <;> simp [fsLookup, List.find?, he]

/-- Deleting a path removes it. -/
theorem fsLookup_delete_self (g : FS) (p : String) : fsLookup (fsDelete g p) p = none := by
  induction g with
  | nil => rfl
  | cons e rest ih =>
    by_cases hep : e.1 = p
    · rw [show fsDelete (e :: rest) p = fsDelete rest p by simp [fsDelete, hep]]
      exact ih
    · rw [show fsDelete (e :: rest) p = e :: fsDelete rest p by simp [fsDelete, hep],
        fsLookup_cons, if_neg hep]
      exact ih

/-- Deleting one path leaves every other path's content unchanged. -/
theorem fsLookup_delete_other (g : FS) (p q : String) (h : q ≠ p) :
    fsLookup (fsDelete g p) q = fsLookup g q := by
  induction g with
  | nil => rfl
  | cons e rest ih =>
    by_cases hep : e.1 = p
    · rw [show fsDelete (e :: rest) p = fsDelete rest p by simp [fsDelete, hep],
        fsLookup_cons, if_neg (show ¬ e.1 = q by rw [hep]; exact fun hc => h hc.symm)]
      exact ih
    · rw [show fsDelete (e :: rest) p = e :: fsDelete rest p by simp [fsDelete, hep],
        fsLookup_cons, fsLookup_cons]
      by_cases heq : e.1 = q
      · rw [if_pos heq, if_pos heq]
      · rw [if_neg heq, if_neg heq]
        exact ih

/-- Deletion never (re)creates a path. -/
theorem fsLookup_delete_none (g : FS) (p q : String) (h : fsLookup g q = none) :
    fsLookup (fsDelete g p) q = none := by
  by_cases hqp : q = p
  · subst hqp
    exact fsLookup_delete_self g _
  · rw [fsLookup_delete_other g p q hqp]
    exact h

/-- Once a path is absent, any sequence of deletions keeps it absent. -/
theorem fsLookup_foldl_delete_none (labels : List String) (g : FS) (l : String)
    (h : fsLookup g l = none) : fsLookup (labels.foldl fsDelete g) l = none := by
  induction labels generalizing g with
  | nil => exact h
  | cons a rest ih => exact ih (fsDelete g a) (fsLookup_delete_none g a l h)

/-- After deleting every path of a list, each of them is gone. -/
theorem fsLookup_foldl_delete_mem (labels : List String) (g : FS) (l : String)
    (h : l ∈ labels) : fsLookup (labels.foldl fsDelete g) l = none := by
  induction labels generalizing g with
  | nil => simp at h
  | cons a rest ih =>
    rcases List.mem_cons.mp h with h1 | h1
    · subst h1
      exact fsLookup_foldl_delete_none rest (fsDelete g l) l (fsLookup_delete_self g l)
    · exact ih (fsDelete g a) h1

/-- Paths outside the deleted list keep their content. -/
theorem fsLookup_foldl_delete_not_mem (labels : List String) (g : FS) (l : String)
    (h : l ∉ labels) : fsLookup (labels.foldl fsDelete g) l = fsLookup g l := by
  induction labels generalizing g with
  | nil => rfl
  | cons a rest ih =>
    have ha : l ≠ a := fun hc => h (hc ▸ List.mem_cons_self a rest)
    have hrest : l ∉ rest := fun hc => h (List.mem_cons_of_mem a hc)
    simp only [List.foldl_cons]
    rw [ih (fsDelete g a) hrest, fsLookup_delete_other g a l ha]

/-- Writing a path stores exactly the written document there. -/
theorem fsLookup_write_self (g : FS) (p : String) (doc : List String) :
    fsLookup (fsWrite g p doc) p = some doc := by
  rw [fsWrite]
  split
  · rename_i hfind
    induction g with
    | nil => simp [fsLookup, List.find?] at hfind
    | cons e rest ih =>
      by_cases he : e.1 = p
      · simp [fsLookup, List.find?, he]
      · simp only [List.find?, List.map] at hfind ⊢
        simp only [he] at hfind ⊢
        simpa [fsLookup, he] using ih (by simpa [he] using hfind)
  · induction g with
    | nil => simp [fsLookup, List.find?]
    | cons e rest ih =>
      rename_i hfind
      by_cases he : e.1 = p
      · exact absurd (by simp [List.find?, he]) hfind
      · simp only [List.cons_append]
        simpa [fsLookup, List.find?, he] using
          ih (by simpa [List.find?, he] using hfind)

/-- Claim C8: in a run that downloaded at least one label, a failed
combine (`writeOk = false`) leaves the file system exactly as it was — no
individual label file is deleted; on a successful combine the merged
document holds the concatenated pages and only then are the individual
files deleted; and any run in which some existing label file disappeared
must have written the merged document successfully. -/
theorem C8_consolidation (fs : FS) (labels : List String) (out : String) (writeOk : Bool)
    (hne : labels ≠ []) :
    (writeOk = false → consolidate_labels fs labels out writeOk = fs) ∧
    (writeOk = true → out ∉ labels →
      fsLookup (consolidate_labels fs labels out writeOk) out = some (gatherPages fs labels) ∧
      ∀ l ∈ labels, fsLookup (consolidate_labels fs labels out writeOk) l = none) ∧
    (∀ l ∈ labels, fsLookup (consolidate_labels fs labels out writeOk) l = none →
      fsLookup fs l ≠ none → writeOk = true) := by
  refine ⟨?_, ?_, ?_⟩
  · intro h
    simp [consolidate_labels, h]
  · intro h hout
    rw [consolidate_labels, if_pos h]
    constructor
    · rw [fsLookup_foldl_delete_not_mem labels _ out hout, combine_pdfs,
        fsLookup_write_self]
    · intro l hl
      exact fsLookup_foldl_delete_mem labels _ l hl
  · intro l hl hdel hex
    cases hw : writeOk with
    | true => rfl
    | false =>
      rw [hw] at hdel
      rw [consolidate_labels] at hdel
      simp only [Bool.false_eq_true, if_false] at hdel
      exact absurd hdel hex

/-- Claim C8 witness: a concrete run over two downloaded labels with a
successful merge — the merged file holds both pages and the two label
files are gone. -/
theorem C8_consolidation_witness :
    fsLookup (consolidate_labels [("label-1.pdf", ["p1"]), ("label-2.pdf", ["p2"])]
        ["label-1.pdf", "label-2.pdf"] "labels-merged.pdf" true) "labels-merged.pdf" =
      some (gatherPages [("label-1.pdf", ["p1"]), ("label-2.pdf", ["p2"])]
        ["label-1.pdf", "label-2.pdf"]) ∧
    ∀ l ∈ ["label-1.pdf", "label-2.pdf"],
      fsLookup (consolidate_labels [("label-1.pdf", ["p1"]), ("label-2.pdf", ["p2"])]
        ["label-1.pdf", "label-2.pdf"] "labels-merged.pdf" true) l = none :=
  (C8_consolidation [("label-1.pdf", ["p1"]), ("label-2.pdf", ["p2"])]
    ["label-1.pdf", "label-2.pdf"] "labels-merged.pdf" true (by simp)).2.1 rfl (by simp)

/-! ### Claim C4 — return-label role swap -/

theorem find?_setKV_self (kvs : List (String × Json)) (key : String) (v : Json) :
    (setKV kvs key v).find? (fun kv => kv.1 = key) = some (key, v) := by
  induction kvs with
  | nil => simp [setKV, List.find?_cons]
  | cons kv rest ih =>
    rw [setKV]
    by_cases hk : kv.1 = key
    · rw [if_pos hk]
      simp [List.find?_cons]
    · rw [if_neg hk]
      simp [List.find?_cons, hk, ih]

theorem find?_setKV_ne (kvs : List (String × Json)) (key k : String) (v : Json)
    (h : ¬ k = key) :
    (setKV kvs key v).find? (fun kv => kv.1 = k) =
      kvs.find? (fun kv => kv.1 = k) := by
  have hnk : ¬ key = k := fun hh => h hh.symm
  induction kvs with
  | nil =>
    rw [setKV]
    simp [List.find?_cons, hnk]
  | cons kv rest ih =>
    rw [setKV]
    by_cases hk : kv.1 = key
    · rw [if_pos hk]
      have hkk : ¬ kv.1 = k := by rw [hk]; exact hnk
      simp [List.find?_cons, hnk, hkk]
    · rw [if_neg hk]
      by_cases hkk : kv.1 = k
      · simp [List.find?_cons, hkk]
      · simp [List.find?_cons, hkk, ih]

theorem jget_jset_ne (j : Json) (key k : String) (v : Json) (h : ¬ k = key) :
    jget (jset j key v) k = jget j k := by
  cases j with
  | obj kvs => simp [jset, jget, find?_setKV_ne kvs key k v h]
  | null => rfl
  | bool b => rfl
  | int n => rfl
  | str s => rfl
  | arr xs => rfl

theorem jget_jset_obj_self (kvs : List (String × Json)) (key : String) (v : Json) :
    jget (jset (.obj kvs) key v) key = some v := by
  simp [jset, jget, find?_setKV_self kvs key v]

/-- Claim C4, counterexample: with `BRING_RETURN_EMAIL` unset and
`BRING_SENDER_EMAIL` set, the recipient booked on a return label is not
the configured return identity — the contact patching of lines 218–228
fills its email from the sender, so the claimed equality with the
configured identity fails in default-like configurations. -/
theorem C4_swap_counterexample :
    jget (pyOrD (jget ((swap_parties cexEnvC4 (.obj []) true).2.1) "contact") (.obj []))
        "email" = some (.str "sender@packchicken.example") ∧
    jget (pyOrD (jget (return_to_from_env cexEnvC4) "contact") (.obj [])) "email" =
      some .null ∧
    (swap_parties cexEnvC4 (.obj []) true).2.1 ≠ return_to_from_env cexEnvC4 := by
  refine ⟨by rfl, by rfl, ?_⟩
  intro hc
  have h1 : jget (pyOrD (jget ((swap_parties cexEnvC4 (.obj []) true).2.1) "contact")
      (.obj [])) "email" = some (.str "sender@packchicken.example") := by rfl
  rw [hc] at h1
  have h2 : jget (pyOrD (jget (return_to_from_env cexEnvC4) "contact") (.obj []))
      "email" = some .null := by rfl
  rw [h2] at h1
  simp at h1

/-- Claim C4, amended: with the return-label flag set, the worker passes
the customer recipient as `sender` and `return_to = None` (so the
assembled booking parties omit `returnTo`); the booked `recipient` is the
configured return identity on every key except `contact` (the identity is
non-empty dict, so the line-212 fallback to the sender never fires), with its
contact rebuilt by the fallback chains of lines 218–228 (name from the
return contact, else the identity name, else the sender contact; email
from the return contact, else `BRING_RETURN_EMAIL`, else the sender
contact, else the customer contact; phone likewise).  The booked recipient
equals the configured return identity whenever that identity's contact
name, email and phone number are all truthy, and can differ otherwise. -/
theorem C4_return_label_swap (e : WorkerEnv) (customerRecipient : Json) :
    (swap_parties e customerRecipient true).1 = customerRecipient ∧
    (swap_parties e customerRecipient true).2.2 = none ∧
    (return_to_from_env e).truthy = true ∧
    (∀ k, ¬ k = "contact" →
      jget ((swap_parties e customerRecipient true).2.1) k =
        jget (return_to_from_env e) k) ∧
    jget ((swap_parties e customerRecipient true).2.1) "contact" =
      some (.obj [
        ("name",
          (pyOr (jget (pyOrD (jget (return_to_from_env e) "contact") (.obj [])) "name")
            (pyOr (jget (return_to_from_env e) "name")
              (jget (pyOrD (jget (sender_from_env e) "contact") (.obj [])) "name"))).getD
            .null),
        ("email",
          (pyOr (jget (pyOrD (jget (return_to_from_env e) "contact") (.obj [])) "email")
            (pyOr (envOpt e.BRING_RETURN_EMAIL)
              (pyOr (jget (pyOrD (jget (sender_from_env e) "contact") (.obj [])) "email")
                (jget ((jget customerRecipient "contact").getD (.obj []))
                  "email")))).getD .null),
        ("phoneNumber",
          (pyOr (jget (pyOrD (jget (return_to_from_env e) "contact") (.obj []))
              "phoneNumber")
            (pyOr (envOpt e.BRING_RETURN_PHONE)
              (pyOr (jget (pyOrD (jget (sender_from_env e) "contact") (.obj []))
                  "phoneNumber")
                (jget ((jget customerRecipient "contact").getD (.obj []))
                  "phoneNumber")))).getD .null)]) ∧
    (truthyO (jget (pyOrD (jget (return_to_from_env e) "contact") (.obj [])) "name") =
        true →
      truthyO (jget (pyOrD (jget (return_to_from_env e) "contact") (.obj [])) "email") =
        true →
      truthyO (jget (pyOrD (jget (return_to_from_env e) "contact") (.obj []))
          "phoneNumber") = true →
      (swap_parties e customerRecipient true).2.1 = return_to_from_env e) ∧
    build_booking_parties (swap_parties e customerRecipient true).1
        (swap_parties e customerRecipient true).2.1
        (swap_parties e customerRecipient true).2.2 =
      ⟨customerRecipient, (swap_parties e customerRecipient true).2.1, none⟩ := by
  have htru : (return_to_from_env e).truthy = true := rfl
  have hsp : swap_parties e customerRecipient true =
      (customerRecipient,
        jset (return_to_from_env e) "contact" (.obj [
          ("name",
            (pyOr (jget (pyOrD (jget (return_to_from_env e) "contact") (.obj [])) "name")
              (pyOr (jget (return_to_from_env e) "name")
                (jget (pyOrD (jget (sender_from_env e) "contact") (.obj []))
                  "name"))).getD .null),
          ("email",
            (pyOr (jget (pyOrD (jget (return_to_from_env e) "contact") (.obj [])) "email")
              (pyOr (envOpt e.BRING_RETURN_EMAIL)
                (pyOr (jget (pyOrD (jget (sender_from_env e) "contact") (.obj []))
                    "email")
                  (jget ((jget customerRecipient "contact").getD (.obj []))
                    "email")))).getD .null),
          ("phoneNumber",
            (pyOr (jget (pyOrD (jget (return_to_from_env e) "contact") (.obj []))
                "phoneNumber")
              (pyOr (envOpt e.BRING_RETURN_PHONE)
                (pyOr (jget (pyOrD (jget (sender_from_env e) "contact") (.obj []))
                    "phoneNumber")
                  (jget ((jget customerRecipient "contact").getD (.obj []))
                    "phoneNumber")))).getD .null)]),
        none) := by
    rw [swap_parties]
    simp only [htru, if_true]
  obtain ⟨kvs, hkvs⟩ : ∃ kvs2, return_to_from_env e = .obj kvs2 := ⟨_, rfl⟩
  refine ⟨rfl, rfl, htru, ?_, ?_, ?_, rfl⟩
  · intro k hk
    rw [hsp]
    exact jget_jset_ne (return_to_from_env e) "contact" k _ hk
  · rw [hsp, hkvs]
    exact jget_jset_obj_self kvs "contact" _
  · intro hn he hp
    have hmain : swap_parties e customerRecipient true =
        (customerRecipient, return_to_from_env e, none) := by
      cases hE : e.BRING_RETURN_EMAIL with
      | none =>
        rw [return_to_from_env] at he
        simp [jget, pyOrD, List.find?, Json.truthy, truthyO, hE, envO] at he
      | some s1 =>
        cases hP : e.BRING_RETURN_PHONE with
        | none =>
          rw [return_to_from_env] at hp
          simp [jget, pyOrD, List.find?, Json.truthy, truthyO, hP, envO] at hp
        | some s2 =>
          rw [return_to_from_env] at hn he hp
          simp [jget, pyOrD, List.find?, Json.truthy, truthyO, hE, hP, envO] at hn he hp
          simp [swap_parties, return_to_from_env, jget, pyOrD, pyOr, jset, setKV,
            Json.truthy, List.find?, hE, hP, envO, envD, hn, he, hp]
    exact congrArg (fun t => t.2.1) hmain

/-! ### Claim C9 — shipping time -/

/-- Claim C9, counterexample: the client's `_build_payload` stamps its
consignment with `utcnow + 1 hour`, not `now + 10 minutes`; at build time
zero the consignment carries 3600 while the claimed stamp is 600. -/
theorem C9_shipping_counterexample :
    raw_shipping_times defaultBringSettings 0 (.obj []) = some [3600] ∧
    spec_shipping_epoch 0 = 600 ∧
    raw_shipping_times defaultBringSettings 0 (.obj []) ≠ some [spec_shipping_epoch 0] := by
  refine ⟨?_, ?_, ?_⟩
  · simp [raw_shipping_times, _build_payload_raw, jget, pyOrD, pyOr, client_total_weight_grams,
      List.foldlM, client_shipping_epoch, Json.truthy, pyStr]
  · simp [spec_shipping_epoch]
  · have h1 : raw_shipping_times defaultBringSettings 0 (.obj []) = some [3600] := by
      simp [raw_shipping_times, _build_payload_raw, jget, pyOrD, pyOr, client_total_weight_grams,
        List.foldlM, client_shipping_epoch, Json.truthy, pyStr]
    have h2 : spec_shipping_epoch 0 = 600 := by simp [spec_shipping_epoch]
    rw [h1, h2]
    intro hcontra
    have := Option.some.inj hcontra
    simp at this

/-- Claim C9, amended: the worker path (`process_next_job`, line 203)
stamps `now + 10 minutes` truncated to whole seconds, while the client
path (`_build_payload`, line 108) stamps `now + 1 hour` truncated to whole
seconds on its (single) consignment; the two build paths do not agree. -/
theorem C9_shipping (s : BringSettings) (now : ℚ) (order : Json) :
    worker_shipping_epoch now = ⌊now⌋ + 600 ∧
    client_shipping_epoch now = ⌊now⌋ + 3600 ∧
    (raw_shipping_times s now order = none ∨
      raw_shipping_times s now order = some [⌊now⌋ + 3600]) := by
  have hw : worker_shipping_epoch now = ⌊now⌋ + 600 := by
    rw [worker_shipping_epoch, show ((600 : ℚ)) = ((600 : ℤ) : ℚ) by norm_num,
      Int.floor_add_int]
  have hc : client_shipping_epoch now = ⌊now⌋ + 3600 := by
    rw [client_shipping_epoch, show ((3600 : ℚ)) = ((3600 : ℤ) : ℚ) by norm_num,
      Int.floor_add_int]
  refine ⟨hw, hc, ?_⟩
  cases hp : _build_payload_raw s now order with
  | none => left; simp [raw_shipping_times, hp]
  | some p =>
    right
    simp [raw_shipping_times, hp, _build_payload_raw_shipping s now order p hp, hc]

/-! ### JSON round-trip: digits and numbers -/

theorem decVal_hexDig (d : Nat) (hd : d < 10) : decVal (hexDig d) = some d := by
  revert hd
  revert d
  decide

theorem hexDig_not_ws (d : Nat) (hd : d < 10) :
    ¬(hexDig d = ' ' ∨ hexDig d = Char.ofNat 9 ∨ hexDig d = Char.ofNat 10 ∨
      hexDig d = Char.ofNat 13) := by
  revert hd
  revert d
  decide

theorem renderNatAux_ne_nil (fuel n : Nat) (h : n < fuel) : renderNatAux fuel n ≠ [] := by
  cases fuel with
  | zero => omega
  | succ f =>
    rw [renderNatAux]
    split
    · simp
    · simp

theorem renderNatAux_head (fuel n : Nat) (h : n < fuel) :
    ∃ d t, d < 10 ∧ renderNatAux fuel n = hexDig d :: t := by
  induction fuel generalizing n with
  | zero => omega
  | succ f ih =>
    rw [renderNatAux]
    by_cases h10 : n < 10
    · exact ⟨n, [], h10, by rw [if_pos h10]⟩
    · have hdiv : n / 10 < f := by omega
      obtain ⟨d, t, hd, ht⟩ := ih (n / 10) hdiv
      exact ⟨d, t ++ [hexDig (n % 10)], hd, by rw [if_neg h10, ht]; rfl⟩

theorem renderNatAux_digits (fuel n : Nat) (h : n < fuel) :
    ∀ c ∈ renderNatAux fuel n, (decVal c).isSome := by
  induction fuel generalizing n with
  | zero => omega
  | succ f ih =>
    rw [renderNatAux]
    by_cases h10 : n < 10
    · rw [if_pos h10]
      intro c hc
      rw [List.mem_singleton] at hc
      subst hc
      rw [decVal_hexDig n h10]
      rfl
    · rw [if_neg h10]
      intro c hc
      rcases List.mem_append.mp hc with hm | hm
      · exact ih (n / 10) (by omega) c hm
      · rw [List.mem_singleton] at hm
        subst hm
        rw [decVal_hexDig (n % 10) (by omega)]
        rfl

theorem parseDigits_stop (rest : List Char) (acc : Nat) (h : digitHead rest = false) :
    parseDigits rest acc = (acc, rest) := by
  cases rest with
  | nil => rfl
  | cons c t =>
    rw [parseDigits]
    rw [digitHead] at h
    cases hd : decVal c with
    | none => rfl
    | some d => rw [hd] at h; simp at h

theorem parseDigits_digits (ds : List Char) :
    ∀ (rest : List Char) (acc : Nat), (∀ c ∈ ds, (decVal c).isSome) →
      parseDigits (ds ++ rest) acc =
        parseDigits rest (ds.foldl (fun a c => a * 10 + ((decVal c).getD 0)) acc) := by
  induction ds with
  | nil => intro rest acc h; rfl
  | cons c t ih =>
    intro rest acc h
    rw [List.cons_append]
    cases hd : decVal c with
    | none =>
      have := h c (List.mem_cons_self c t)
      rw [hd] at this
      simp at this
    | some d =>
      have hstep : parseDigits (c :: (t ++ rest)) acc = parseDigits (t ++ rest) (acc * 10 + d) := by
        simp [parseDigits, hd]
      rw [hstep, ih rest (acc * 10 + d) (fun x hx => h x (List.mem_cons_of_mem c hx)),
        List.foldl_cons, hd]
      rfl

theorem renderNatAux_foldl (fuel n : Nat) (h : n < fuel) :
    ∀ acc, (renderNatAux fuel n).foldl (fun a c => a * 10 + ((decVal c).getD 0)) acc =
      acc * 10 ^ (renderNatAux fuel n).length + n := by
  induction fuel generalizing n with
  | zero => omega
  | succ f ih =>
    intro acc
    rw [renderNatAux]
    by_cases h10 : n < 10
    · rw [if_pos h10]
      simp [decVal_hexDig n h10]
    · rw [if_neg h10]
      rw [List.foldl_append, ih (n / 10) (by omega) acc]
      simp only [List.foldl_cons, List.foldl_nil, List.length_append, List.length_cons,
        List.length_nil, decVal_hexDig (n % 10) (by omega), Option.getD_some]
      rw [pow_succ, ← mul_assoc]
      generalize acc * 10 ^ (renderNatAux f (n / 10)).length = A
      omega

theorem parseDigits_renderNat (n : Nat) (rest : List Char) (h : digitHead rest = false) :
    parseDigits (renderNat n ++ rest) 0 = (n, rest) := by
  rw [renderNat, parseDigits_digits _ rest 0 (renderNatAux_digits (n + 1) n (by omega)),
    renderNatAux_foldl (n + 1) n (by omega) 0, parseDigits_stop rest _ h]
  simp


/-! ### JSON round-trip: strings and escapes -/

theorem hexVal_hexDig (d : Nat) (hd : d < 16) : hexVal (hexDig d) = some d := by
  revert hd
  revert d
  decide

theorem parseHex4_hex4 (n : Nat) (hn : n < 65536) (rest : List Char) :
    parseHex4 (hex4 n ++ rest) = some (n, rest) := by
  rw [hex4]
  simp only [List.cons_append, List.nil_append, parseHex4,
    hexVal_hexDig (n / 4096 % 16) (by omega), hexVal_hexDig (n / 256 % 16) (by omega),
    hexVal_hexDig (n / 16 % 16) (by omega), hexVal_hexDig (n % 16) (by omega)]
  have : ((n / 4096 % 16 * 16 + n / 256 % 16) * 16 + n / 16 % 16) * 16 + n % 16 = n := by
    omega
  rw [this]

theorem uEscape_ne_nil (n : Nat) : uEscape n ≠ [] := by
  rw [uEscape]
  split_ifs <;> simp

theorem escapeChar_ne_nil (c : Char) : escapeChar c ≠ [] := by
  rw [escapeChar]
  split_ifs <;> simp [uEscape_ne_nil c.toNat]

theorem escapeList_length (s : List Char) : s.length ≤ (escapeList s).length := by
  induction s with
  | nil => simp [escapeList]
  | cons c t ih =>
    rw [escapeList, List.length_append, List.length_cons]
    have h1 : 1 ≤ (escapeChar c).length :=
      List.length_pos.mpr (escapeChar_ne_nil c)
    omega

theorem char_not_high_surrogate (c : Char) : ¬(55296 ≤ c.toNat ∧ c.toNat ≤ 56319) := by
  have h := c.valid
  rw [UInt32.isValidChar, Nat.isValidChar] at h
  rw [Char.toNat]
  omega

theorem char_toNat_lt (c : Char) : c.toNat < 1114112 := by
  have h := c.valid
  rw [UInt32.isValidChar, Nat.isValidChar] at h
  rw [Char.toNat]
  omega

theorem psb_quote (f : Nat) (rest : List Char) :
    parseStrBody (f + 1) (jsonQuote :: rest) = some ([], rest) := by
  simp [parseStrBody]

theorem psb_plain (f : Nat) (c : Char) (rest : List Char) (cs : List Char) (r : List Char)
    (h1 : ¬ c = jsonQuote) (h2 : ¬ c = jsonBackslash)
    (h : parseStrBody f rest = some (cs, r)) :
    parseStrBody (f + 1) (c :: rest) = some (c :: cs, r) := by
  simp [parseStrBody, h1, h2, h]

theorem psb_escape2 (f : Nat) (e ch : Char) (rest cs r : List Char)
    (he : ¬ e = 'u') (hu : unescapeChar e = some ch)
    (h : parseStrBody f rest = some (cs, r)) :
    parseStrBody (f + 1) (jsonBackslash :: e :: rest) = some (ch :: cs, r) := by
  simp [parseStrBody, show ¬ jsonBackslash = jsonQuote by decide, he, hu, h]

theorem psb_uescape_bmp (f n : Nat) (rest cs r : List Char)
    (hn : n < 65536) (hhi : ¬(55296 ≤ n ∧ n ≤ 56319))
    (h : parseStrBody f rest = some (cs, r)) :
    parseStrBody (f + 1) (jsonBackslash :: 'u' :: (hex4 n ++ rest)) =
      some (Char.ofNat n :: cs, r) := by
  simp [parseStrBody, show ¬ jsonBackslash = jsonQuote by decide,
    parseHex4_hex4 n hn rest, hhi, h]

theorem psb_uescape_pair (f n m : Nat) (rest cs r : List Char)
    (hn : n < 65536) (hm : m < 65536)
    (hhi : 55296 ≤ n ∧ n ≤ 56319) (hlo : 56320 ≤ m ∧ m ≤ 57343)
    (h : parseStrBody f rest = some (cs, r)) :
    parseStrBody (f + 1)
        (jsonBackslash :: 'u' :: (hex4 n ++ (jsonBackslash :: 'u' :: (hex4 m ++ rest)))) =
      some (Char.ofNat (65536 + (n - 55296) * 1024 + (m - 56320)) :: cs, r) := by
  have h4 := parseHex4_hex4 n hn (jsonBackslash :: 'u' :: (hex4 m ++ rest))
  have h4m := parseHex4_hex4 m hm rest
  simp [parseStrBody, show ¬ jsonBackslash = jsonQuote by decide, h4, h4m, hhi, hlo, h]


theorem parseStrBody_escape (s : List Char) : ∀ (fuel : Nat) (rest : List Char),
    s.length < fuel →
    parseStrBody fuel (escapeList s ++ jsonQuote :: rest) = some (s, rest) := by
  induction s with
  | nil =>
    intro fuel rest h
    cases fuel with
    | zero => omega
    | succ f =>
      rw [escapeList, List.nil_append]
      exact psb_quote f rest
  | cons c t ih =>
    intro fuel rest h
    cases fuel with
    | zero => omega
    | succ f =>
      have hrec : parseStrBody f (escapeList t ++ jsonQuote :: rest) = some (t, rest) :=
        ih f rest (by simp at h; omega)
      rw [escapeList, List.append_assoc, escapeChar]
      split_ifs with h1 h2 h3 h4 h5 h6 h7 h8
      · subst h1
        simpa using psb_escape2 f jsonBackslash jsonBackslash _ t rest (by decide)
          (by decide) hrec
      · subst h2
        simpa using psb_escape2 f jsonQuote jsonQuote _ t rest (by decide)
          (by decide) hrec
      · subst h3
        simpa using psb_escape2 f 'b' (Char.ofNat 8) _ t rest (by decide)
          (by decide) hrec
      · subst h4
        simpa using psb_escape2 f 'f' (Char.ofNat 12) _ t rest (by decide)
          (by decide) hrec
      · subst h5
        simpa using psb_escape2 f 'n' (Char.ofNat 10) _ t rest (by decide)
          (by decide) hrec
      · subst h6
        simpa using psb_escape2 f 'r' (Char.ofNat 13) _ t rest (by decide)
          (by decide) hrec
      · subst h7
        simpa using psb_escape2 f 't' (Char.ofNat 9) _ t rest (by decide)
          (by decide) hrec
      · rw [uEscape]
        split_ifs with h9
        · simpa [Char.ofNat_toNat] using
            psb_uescape_bmp f c.toNat _ t rest h9 (char_not_high_surrogate c) hrec
        · have hlt := char_toNat_lt c
          have hge : 65536 ≤ c.toNat := by omega
          have hhi1 : (c.toNat - 65536) / 1024 ≤ 1023 := by omega
          have hlo1 : (c.toNat - 65536) % 1024 ≤ 1023 := by omega
          have hpair := psb_uescape_pair f (55296 + (c.toNat - 65536) / 1024)
            (56320 + (c.toNat - 65536) % 1024) (escapeList t ++ jsonQuote :: rest) t rest
            (by omega) (by omega) (by omega) (by omega) hrec
          have hcode : 65536 + (55296 + (c.toNat - 65536) / 1024 - 55296) * 1024 +
              (56320 + (c.toNat - 65536) % 1024 - 56320) = c.toNat := by omega
          rw [hcode, Char.ofNat_toNat] at hpair
          simpa using hpair
      · simpa using psb_plain f c _ t rest h2 h1 hrec


/-! ### JSON round-trip: parser dispatch lemmas -/

theorem skipWs_not_ws (c : Char) (t : List Char)
    (h : ¬(c = ' ' ∨ c = Char.ofNat 9 ∨ c = Char.ofNat 10 ∨ c = Char.ofNat 13)) :
    skipWs (c :: t) = c :: t := by
  rw [skipWs, if_neg h]

theorem skipWs_space (t : List Char) : skipWs (' ' :: t) = skipWs t := by
  rw [skipWs]
  simp

theorem parseJson_space (f : Nat) (z : List Char) :
    parseJson f (' ' :: z) = parseJson f z := by
  cases f with
  | zero => rfl
  | succ g =>
    conv_lhs => rw [parseJson]
    conv_rhs => rw [parseJson]
    rw [skipWs_space]

theorem parseElems_space (f : Nat) (z : List Char) :
    parseElems f (' ' :: z) = parseElems f z := by
  cases f with
  | zero => rfl
  | succ g =>
    conv_lhs => rw [parseElems]
    conv_rhs => rw [parseElems]
    rw [parseJson_space]

theorem parseMembers_space (f : Nat) (z : List Char) :
    parseMembers f (' ' :: z) = parseMembers f z := by
  cases f with
  | zero => rfl
  | succ g =>
    conv_lhs => rw [parseMembers]
    conv_rhs => rw [parseMembers]
    rw [skipWs_space]

theorem pj_null (f : Nat) (rest : List Char) :
    parseJson (f + 1) ('n' :: 'u' :: 'l' :: 'l' :: rest) = some (.null, rest) := by
  simp [parseJson, skipWs]

theorem pj_true (f : Nat) (rest : List Char) :
    parseJson (f + 1) ('t' :: 'r' :: 'u' :: 'e' :: rest) = some (.bool true, rest) := by
  simp [parseJson, skipWs]

theorem pj_false (f : Nat) (rest : List Char) :
    parseJson (f + 1) ('f' :: 'a' :: 'l' :: 's' :: 'e' :: rest) = some (.bool false, rest) := by
  simp [parseJson, skipWs]

theorem pj_str (f : Nat) (body cs r : List Char)
    (h : parseStrBody (body.length + 1) body = some (cs, r)) :
    parseJson (f + 1) (jsonQuote :: body) = some (.str (String.mk cs), r) := by
  rw [parseJson, skipWs_not_ws _ _ (by decide)]
  simp [show ¬ jsonQuote = 'n' by decide, show ¬ jsonQuote = 't' by decide,
    show ¬ jsonQuote = 'f' by decide, h]

theorem hexDig_not_special (d : Nat) (hd : d < 10) :
    ¬ hexDig d = 'n' ∧ ¬ hexDig d = 't' ∧ ¬ hexDig d = 'f' ∧
    ¬ hexDig d = jsonQuote ∧ ¬ hexDig d = '[' ∧ ¬ hexDig d = braceL ∧
    ¬ hexDig d = '-' := by
  revert hd
  revert d
  decide

theorem pj_nat (f m : Nat) (rest : List Char) (h : digitHead rest = false) :
    parseJson (f + 1) (renderNat m ++ rest) = some (.int m, rest) := by
  obtain ⟨d, t2, hd, ht⟩ := renderNatAux_head (m + 1) m (by omega)
  have hparse := parseDigits_renderNat m rest h
  unfold renderNat at hparse ⊢
  rw [ht] at hparse ⊢
  have hws : ¬(hexDig d = ' ' ∨ hexDig d = Char.ofNat 9 ∨ hexDig d = Char.ofNat 10 ∨
      hexDig d = Char.ofNat 13) := hexDig_not_ws d hd
  have hfacts := hexDig_not_special d hd
  have hdig : (decVal (hexDig d)).isSome := by rw [decVal_hexDig d hd]; rfl
  rw [List.cons_append] at hparse ⊢
  simp [parseJson, skipWs_not_ws _ _ hws, hfacts.1, hfacts.2.1, hfacts.2.2.1,
    hfacts.2.2.2.1, hfacts.2.2.2.2.1, hfacts.2.2.2.2.2.1, hfacts.2.2.2.2.2.2, hdig, hparse]

theorem pj_int (f : Nat) (n : Int) (rest : List Char) (h : digitHead rest = false) :
    parseJson (f + 1) (renderInt n ++ rest) = some (.int n, rest) := by
  rw [renderInt]
  split_ifs with hneg
  · obtain ⟨d, t2, hd, ht⟩ := renderNatAux_head ((-n).toNat + 1) (-n).toNat (by omega)
    have hparse := parseDigits_renderNat (-n).toNat rest h
    unfold renderNat at hparse
    have hdig : digitHead (renderNatAux ((-n).toNat + 1) (-n).toNat ++ rest) = true := by
      rw [ht, List.cons_append, digitHead, decVal_hexDig d hd]
      rfl
    have hcast : (((-n).toNat : Int)) = -n := Int.toNat_of_nonneg (by omega)
    unfold renderNat
    rw [List.cons_append, parseJson, skipWs_not_ws _ _ (by decide)]
    simp [hdig, hparse, hcast, show ¬ '-' = jsonQuote by decide,
      show ¬ '-' = braceL by decide]
  · have hcast : ((n.toNat : Int)) = n := Int.toNat_of_nonneg (by omega)
    have hnat := pj_nat f n.toNat rest h
    rw [hcast] at hnat
    exact hnat


theorem pj_arr_nil (f : Nat) (rest : List Char) :
    parseJson (f + 1) ('[' :: ']' :: rest) = some (.arr [], rest) := by
  rw [parseJson, skipWs_not_ws _ _ (by decide)]
  simp [show ¬ '[' = jsonQuote by decide, skipWs_not_ws ']' rest (by decide)]

theorem pj_arr (f : Nat) (c : Char) (t rest2 : List Char) (xs : List Json)
    (hws : ¬(c = ' ' ∨ c = Char.ofNat 9 ∨ c = Char.ofNat 10 ∨ c = Char.ofNat 13))
    (hne : ¬ c = ']')
    (h : parseElems f (c :: t) = some (xs, rest2)) :
    parseJson (f + 1) ('[' :: c :: t) = some (.arr xs, rest2) := by
  rw [parseJson, skipWs_not_ws _ _ (by decide)]
  simp [show ¬ '[' = jsonQuote by decide, skipWs_not_ws c t hws, hne, h]

theorem pj_obj_nil (f : Nat) (rest : List Char) :
    parseJson (f + 1) (braceL :: braceR :: rest) = some (.obj [], rest) := by
  rw [parseJson, skipWs_not_ws _ _ (by decide)]
  simp [show ¬ braceL = 'n' by decide, show ¬ braceL = 't' by decide,
    show ¬ braceL = 'f' by decide, show ¬ braceL = jsonQuote by decide,
    show ¬ braceL = '[' by decide, skipWs_not_ws braceR rest (by decide)]

theorem pj_obj (f : Nat) (c : Char) (t rest2 : List Char) (kvs : List (String × Json))
    (hws : ¬(c = ' ' ∨ c = Char.ofNat 9 ∨ c = Char.ofNat 10 ∨ c = Char.ofNat 13))
    (hne : ¬ c = braceR)
    (h : parseMembers f (c :: t) = some (kvs, rest2)) :
    parseJson (f + 1) (braceL :: c :: t) = some (.obj kvs, rest2) := by
  rw [parseJson, skipWs_not_ws _ _ (by decide)]
  simp [show ¬ braceL = 'n' by decide, show ¬ braceL = 't' by decide,
    show ¬ braceL = 'f' by decide, show ¬ braceL = jsonQuote by decide,
    show ¬ braceL = '[' by decide, skipWs_not_ws c t hws, hne, h,
    Option.some.injEq]

theorem pe_last (f : Nat) (z : List Char) (x : Json) (rest : List Char)
    (hx : parseJson f z = some (x, ']' :: rest)) :
    parseElems (f + 1) z = some ([x], rest) := by
  rw [parseElems, hx]
  simp [skipWs_not_ws ']' rest (by decide)]

theorem pe_cons (f : Nat) (z z2 : List Char) (x : Json) (xs : List Json) (rest : List Char)
    (hx : parseJson f z = some (x, ',' :: ' ' :: z2))
    (hrec : parseElems f z2 = some (xs, rest)) :
    parseElems (f + 1) z = some (x :: xs, rest) := by
  rw [parseElems, hx]
  simp [skipWs_not_ws ',' (' ' :: z2) (by decide), parseElems_space, hrec]

theorem pm_last (f : Nat) (body cs r : List Char) (v : Json) (rest : List Char)
    (hS : parseStrBody (body.length + 1) body = some (cs, ':' :: r))
    (hv : parseJson f r = some (v, braceR :: rest)) :
    parseMembers (f + 1) (jsonQuote :: body) = some ([(String.mk cs, v)], rest) := by
  rw [parseMembers, skipWs_not_ws _ _ (by decide)]
  simp [hS, skipWs_not_ws ':' r (by decide), hv,
    skipWs_not_ws braceR rest (by decide), show ¬ braceR = ',' by decide]

theorem pm_cons (f : Nat) (body cs r z3 : List Char) (v : Json)
    (kvs : List (String × Json)) (rest : List Char)
    (hS : parseStrBody (body.length + 1) body = some (cs, ':' :: r))
    (hv : parseJson f r = some (v, ',' :: ' ' :: z3))
    (hrec : parseMembers f z3 = some (kvs, rest)) :
    parseMembers (f + 1) (jsonQuote :: body) = some ((String.mk cs, v) :: kvs, rest) := by
  rw [parseMembers, skipWs_not_ws _ _ (by decide)]
  simp [hS, skipWs_not_ws ':' r (by decide), hv,
    skipWs_not_ws ',' (' ' :: z3) (by decide), parseMembers_space, hrec]

theorem hexDig_not_special2 (d : Nat) (hd : d < 10) :
    ¬ hexDig d = ']' ∧ ¬ hexDig d = braceR ∧ ¬ hexDig d = ',' := by
  revert hd
  revert d
  decide

theorem render_head_spec (v : Json) : ∃ c t, render v = c :: t ∧
    (¬(c = ' ' ∨ c = Char.ofNat 9 ∨ c = Char.ofNat 10 ∨ c = Char.ofNat 13)) ∧
    ¬ c = ']' ∧ ¬ c = braceR ∧ ¬ c = ',' := by
  cases v with
  | null => exact ⟨'n', ['u', 'l', 'l'], by simp [render], by decide, by decide, by decide, by decide⟩
  | bool b =>
    cases b with
    | true => exact ⟨'t', ['r', 'u', 'e'], by simp [render], by decide, by decide, by decide, by decide⟩
    | false => exact ⟨'f', ['a', 'l', 's', 'e'], by simp [render], by decide, by decide, by decide, by decide⟩
  | int n =>
    by_cases hneg : n < 0
    · refine ⟨'-', renderNat (-n).toNat, ?_, by decide, by decide, by decide, by decide⟩
      simp [render, renderInt, hneg]
    · obtain ⟨d, t2, hd, ht⟩ := renderNatAux_head (n.toNat + 1) n.toNat (by omega)
      refine ⟨hexDig d, t2, ?_, hexDig_not_ws d hd, (hexDig_not_special2 d hd).1,
        (hexDig_not_special2 d hd).2.1, (hexDig_not_special2 d hd).2.2⟩
      simp [render, renderInt, hneg, renderNat, ht]
  | str s =>
    exact ⟨jsonQuote, escapeList s.data ++ [jsonQuote], by simp [render], by decide, by decide, by decide, by decide⟩
  | arr xs =>
    exact ⟨'[', renderElems xs, by simp [render], by decide, by decide, by decide, by decide⟩
  | obj kvs =>
    exact ⟨braceL, renderMembers kvs, by simp [render], by decide, by decide, by decide,
      by decide⟩


theorem digitHead_cons (c : Char) (t : List Char) :
    digitHead (c :: t) = (decVal c).isSome := rfl

theorem renderElems_head (x : Json) (xs : List Json) :
    ∃ u, renderElems (x :: xs) = render x ++ u := by
  cases xs with
  | nil => exact ⟨[']'], by simp [renderElems]⟩
  | cons y ys =>
    exact ⟨',' :: (' ' :: renderElems (y :: ys)), by
      simp [renderElems]⟩

theorem renderMembers_head (k : String) (v : Json) (kvs : List (String × Json)) :
    ∃ u, renderMembers ((k, v) :: kvs) = jsonQuote :: u := by
  cases kvs with
  | nil =>
    exact ⟨escapeList k.data ++ (jsonQuote :: (':' :: (' ' :: (render v ++ [braceR])))), by
      simp [renderMembers]⟩
  | cons kv2 kvs2 =>
    exact ⟨escapeList k.data ++ (jsonQuote :: (':' :: (' ' :: (render v ++
      (',' :: (' ' :: renderMembers (kv2 :: kvs2))))))), by
      simp [renderMembers]⟩

theorem render_roundtrip : ∀ fuel : Nat,
    (∀ (v : Json) (rest : List Char), digitHead rest = false →
      (render v).length < fuel →
      parseJson fuel (render v ++ rest) = some (v, rest)) ∧
    (∀ (x : Json) (xs : List Json) (rest : List Char),
      (renderElems (x :: xs)).length < fuel →
      parseElems fuel (renderElems (x :: xs) ++ rest) = some (x :: xs, rest)) ∧
    (∀ (k : String) (v : Json) (kvs : List (String × Json)) (rest : List Char),
      (renderMembers ((k, v) :: kvs)).length < fuel →
      parseMembers fuel (renderMembers ((k, v) :: kvs) ++ rest) =
        some ((k, v) :: kvs, rest)) := by
  intro fuel
  induction fuel using Nat.strong_induction_on with
  | _ fuel ih =>
  cases fuel with
  | zero =>
    refine ⟨?_, ?_, ?_⟩
    · intro v rest _ hlen
      exact absurd hlen (Nat.not_lt_zero _)
    · intro x xs rest hlen
      exact absurd hlen (Nat.not_lt_zero _)
    · intro k v kvs rest hlen
      exact absurd hlen (Nat.not_lt_zero _)
  | succ f =>
  obtain ⟨P, Q, R⟩ := ih f (Nat.lt_succ_self f)
  refine ⟨?_, ?_, ?_⟩
  · intro v rest hrest hlen
    cases v with
    | null =>
      rw [show render Json.null = ['n', 'u', 'l', 'l'] from by simp [render]]
      exact pj_null f rest
    | bool b =>
      cases b with
      | true =>
        rw [show render (Json.bool true) = ['t', 'r', 'u', 'e'] from by simp [render]]
        exact pj_true f rest
      | false =>
        rw [show render (Json.bool false) = ['f', 'a', 'l', 's', 'e'] from by
          simp [render]]
        exact pj_false f rest
    | int n =>
      rw [show render (Json.int n) = renderInt n from by simp [render]]
      exact pj_int f n rest hrest
    | str s =>
      have hS := parseStrBody_escape s.data
        ((escapeList s.data ++ (jsonQuote :: rest)).length + 1) rest
        (by
          have := escapeList_length s.data
          simp only [List.length_append, List.length_cons]
          omega)
      rw [show render (Json.str s) =
        jsonQuote :: (escapeList s.data ++ [jsonQuote]) from by simp [render]]
      rw [List.cons_append, List.append_assoc, List.singleton_append]
      exact pj_str f (escapeList s.data ++ (jsonQuote :: rest)) s.data rest hS
    | arr xs =>
      cases xs with
      | nil =>
        rw [show render (Json.arr []) = ['[', ']'] from by simp [render, renderElems]]
        exact pj_arr_nil f rest
      | cons x xs =>
        obtain ⟨c, t, hct, hws, hne, hnbr, hnc⟩ := render_head_spec x
        have hlen2 : (renderElems (x :: xs)).length < f := by
          simp [render] at hlen
          omega
        have hQ := Q x xs rest hlen2
        obtain ⟨u, hu⟩ := renderElems_head x xs
        rw [show render (Json.arr (x :: xs)) = '[' :: renderElems (x :: xs) from by
          simp [render], List.cons_append]
        rw [hu, hct] at hQ ⊢
        simp only [List.cons_append, List.append_assoc] at hQ ⊢
        exact pj_arr f c (t ++ (u ++ rest)) rest (x :: xs) hws hne hQ
    | obj kvs =>
      cases kvs with
      | nil =>
        rw [show render (Json.obj []) = [braceL, braceR] from by
          simp [render, renderMembers]]
        exact pj_obj_nil f rest
      | cons kv kvs =>
        obtain ⟨k, v⟩ := kv
        have hlen2 : (renderMembers ((k, v) :: kvs)).length < f := by
          simp [render] at hlen
          omega
        have hR := R k v kvs rest hlen2
        obtain ⟨u, hu⟩ := renderMembers_head k v kvs
        rw [show render (Json.obj ((k, v) :: kvs)) =
          braceL :: renderMembers ((k, v) :: kvs) from by simp [render],
          List.cons_append]
        rw [hu] at hR ⊢
        simp only [List.cons_append, List.append_assoc] at hR ⊢
        exact pj_obj f jsonQuote (u ++ rest) rest ((k, v) :: kvs)
          (by decide) (by decide) hR
  · intro x xs rest hlen
    cases xs with
    | nil =>
      have hlx : (render x).length < f := by
        simp [renderElems] at hlen
        omega
      have hP := P x (']' :: rest) (by rw [digitHead_cons]; decide) hlx
      rw [show renderElems [x] = render x ++ [']'] from by simp [renderElems],
        List.append_assoc, List.singleton_append]
      exact pe_last f (render x ++ (']' :: rest)) x rest hP
    | cons y ys =>
      have hlen2 : (renderElems (x :: (y :: ys))).length =
          (render x).length + ((renderElems (y :: ys)).length + 2) := by
        simp [renderElems]
      rw [hlen2] at hlen
      have hP := P x (',' :: (' ' :: (renderElems (y :: ys) ++ rest)))
        (by rw [digitHead_cons]; decide) (by omega)
      have hQ2 := Q y ys rest (by omega)
      rw [show renderElems (x :: (y :: ys)) =
        render x ++ (',' :: (' ' :: renderElems (y :: ys))) from by simp [renderElems],
        List.append_assoc, List.cons_append, List.cons_append]
      exact pe_cons f (render x ++ (',' :: (' ' :: (renderElems (y :: ys) ++ rest))))
        (renderElems (y :: ys) ++ rest) x (y :: ys) rest hP hQ2
  · intro k v kvs rest hlen
    cases kvs with
    | nil =>
      have hlen2 : (renderMembers [(k, v)]).length =
          (escapeList k.data).length + ((render v).length + 5) := by
        simp [renderMembers]
        omega
      rw [hlen2] at hlen
      have hS := parseStrBody_escape k.data
        ((escapeList k.data ++ (jsonQuote :: (':' :: (' ' ::
          (render v ++ (braceR :: rest)))))).length + 1)
        (':' :: (' ' :: (render v ++ (braceR :: rest))))
        (by
          have := escapeList_length k.data
          simp only [List.length_append, List.length_cons]
          omega)
      have hv : parseJson f (' ' :: (render v ++ (braceR :: rest))) =
          some (v, braceR :: rest) := by
        rw [parseJson_space]
        exact P v (braceR :: rest) (by rw [digitHead_cons]; decide) (by omega)
      have hkey : renderMembers [(k, v)] ++ rest =
          jsonQuote :: (escapeList k.data ++ (jsonQuote :: (':' :: (' ' ::
            (render v ++ (braceR :: rest)))))) := by
        simp [renderMembers]
      rw [hkey]
      exact pm_last f
        (escapeList k.data ++ (jsonQuote :: (':' :: (' ' ::
          (render v ++ (braceR :: rest))))))
        k.data (' ' :: (render v ++ (braceR :: rest))) v rest hS hv
    | cons kv2 kvs2 =>
      obtain ⟨k2, v2⟩ := kv2
      have hlen2 : (renderMembers ((k, v) :: ((k2, v2) :: kvs2))).length =
          (escapeList k.data).length + ((render v).length +
            ((renderMembers ((k2, v2) :: kvs2)).length + 6)) := by
        simp [renderMembers]
        omega
      rw [hlen2] at hlen
      have hS := parseStrBody_escape k.data
        ((escapeList k.data ++ (jsonQuote :: (':' :: (' ' ::
          (render v ++ (',' :: (' ' ::
            (renderMembers ((k2, v2) :: kvs2) ++ rest)))))))).length + 1)
        (':' :: (' ' :: (render v ++ (',' :: (' ' ::
          (renderMembers ((k2, v2) :: kvs2) ++ rest))))))
        (by
          have := escapeList_length k.data
          simp only [List.length_append, List.length_cons]
          omega)
      have hv : parseJson f (' ' :: (render v ++ (',' :: (' ' ::
          (renderMembers ((k2, v2) :: kvs2) ++ rest))))) =
          some (v, ',' :: (' ' :: (renderMembers ((k2, v2) :: kvs2) ++ rest))) := by
        rw [parseJson_space]
        exact P v (',' :: (' ' :: (renderMembers ((k2, v2) :: kvs2) ++ rest)))
          (by rw [digitHead_cons]; decide) (by omega)
      have hrec := R k2 v2 kvs2 rest (by omega)
      have hkey : renderMembers ((k, v) :: ((k2, v2) :: kvs2)) ++ rest =
          jsonQuote :: (escapeList k.data ++ (jsonQuote :: (':' :: (' ' ::
            (render v ++ (',' :: (' ' ::
              (renderMembers ((k2, v2) :: kvs2) ++ rest)))))))) := by
        simp [renderMembers]
      rw [hkey]
      exact pm_cons f
        (escapeList k.data ++ (jsonQuote :: (':' :: (' ' ::
          (render v ++ (',' :: (' ' ::
            (renderMembers ((k2, v2) :: kvs2) ++ rest))))))))
        k.data (' ' :: (render v ++ (',' :: (' ' ::
          (renderMembers ((k2, v2) :: kvs2) ++ rest)))))
        (renderMembers ((k2, v2) :: kvs2) ++ rest) v
        ((k2, v2) :: kvs2) rest hS hv hrec

theorem loads_dumps (v : Json) : loads (dumps v) = some v := by
  have h := (render_roundtrip ((render v).length + 1)).1 v [] (by rfl)
    (Nat.lt_succ_self _)
  rw [List.append_nil] at h
  rw [loads]
  show (match parseJson ((render v).length + 1) (render v) with
    | some (w, rest) => if skipWs rest = [] then some w else none
    | none => none) = some v
  rw [h]
  simp [skipWs]


/-! ### Claims C1 and C10 — store FIFO order and enqueue/claim round trip -/

theorem minPending_unique (rows : List Row) (r0 : Row)
    (h0 : r0 ∈ rows) (hp : r0.status = "pending")
    (hmin : ∀ r ∈ rows, r.status = "pending" → r = r0 ∨ r0.id < r.id) :
    minPending rows = some r0 := by
  rw [minPending]
  cases hm : rows.foldl minPendingStep none with
  | none => exact absurd hp (((minPending_fold_none rows none).mp hm).2 r0 h0)
  | some r =>
    rcases minPending_fold_sound rows none r hm with hs | hs
    · exact absurd hs (by simp)
    · rcases hmin r hs.1 hs.2 with he | hlt
      · rw [he]
      · have h2 := (minPending_fold_min rows none r hm).2 r0 h0 hp
        omega

theorem get_next_job_lowest (st : Store) (r0 : Row)
    (h0 : r0 ∈ st.rows) (hp : r0.status = "pending")
    (hmin : ∀ r ∈ st.rows, r.status = "pending" → r = r0 ∨ r0.id < r.id) :
    get_next_job st = some (r0.id, loads r0.payload) := by
  rw [get_next_job, minPending_unique st.rows r0 h0 hp hmin]

theorem mkRows_mem (now : ℚ) : ∀ (os : List Json) (start : Nat) (r : Row),
    r ∈ mkRows now start os → r.status = "pending" ∧ start ≤ r.id := by
  intro os
  induction os with
  | nil =>
    intro start r hr
    simp [mkRows] at hr
  | cons o os ih =>
    intro start r hr
    rw [mkRows] at hr
    rcases List.mem_cons.mp hr with he | he
    · subst he
      exact ⟨rfl, le_refl _⟩
    · have h2 := ih (start + 1) r he
      exact ⟨h2.1, by omega⟩

theorem map_noop (fn : Row → Row) (l : List Row) (h : ∀ r ∈ l, fn r = r) :
    l.map fn = l := by
  induction l with
  | nil => rfl
  | cons a t ih =>
    rw [List.map_cons, h a (List.mem_cons_self a t),
      ih (fun r hr => h r (List.mem_cons_of_mem a hr))]

theorem enqueue_all_spec (now : ℚ) : ∀ (os : List Json) (st : Store),
    enqueue_all now st os =
      ⟨st.rows ++ mkRows now st.nextId os, st.nextId + os.length⟩ := by
  intro os
  induction os with
  | nil =>
    intro st
    simp [enqueue_all, mkRows]
  | cons o os ih =>
    intro st
    rw [enqueue_all, ih]
    simp [add_job, mkRows, List.append_assoc]
    omega

theorem drain_enqueue (now : ℚ) (status : String) (hs : status ≠ "pending") :
    ∀ (os : List Json) (a : List Row) (start nid : Nat),
    (∀ r ∈ a, r.status ≠ "pending") →
    (∀ r ∈ a, r.id < start) →
    drain os.length ⟨a ++ mkRows now start os, nid⟩ status now =
      (List.range' start os.length).zip (os.map some) := by
  intro os
  induction os with
  | nil =>
    intro a start nid h1 h2
    simp [mkRows, drain]
  | cons o os ih =>
    intro a start nid h1 h2
    have hget : get_next_job ⟨a ++ mkRows now start (o :: os), nid⟩ =
        some (start, some o) := by
      have h0 : (⟨start, jget o "id", "pending", dumps o, now, now⟩ : Row) ∈
          a ++ mkRows now start (o :: os) := by
        rw [mkRows]
        exact List.mem_append_right a (List.mem_cons_self _ _)
      have hlow : ∀ r ∈ a ++ mkRows now start (o :: os), r.status = "pending" →
          r = (⟨start, jget o "id", "pending", dumps o, now, now⟩ : Row) ∨
            start < r.id := by
        intro r hr hpr
        rcases List.mem_append.mp hr with hra | hrm
        · exact absurd hpr (h1 r hra)
        · rw [mkRows] at hrm
          rcases List.mem_cons.mp hrm with he | he
          · exact Or.inl he
          · refine Or.inr ?_
            have h3 := (mkRows_mem now os (start + 1) r he).2
            omega
      have heq := get_next_job_lowest ⟨a ++ mkRows now start (o :: os), nid⟩
        ⟨start, jget o "id", "pending", dumps o, now, now⟩ h0 rfl hlow
      rw [heq]
      show some (start, loads (dumps o)) = some (start, some o)
      rw [loads_dumps]
    have hupd2 : update_status ⟨a ++ mkRows now start (o :: os), nid⟩ start status now =
        ⟨a ++ (⟨start, jget o "id", status, dumps o, now, now⟩ : Row) ::
          mkRows now (start + 1) os, nid⟩ := by
      rw [update_status]
      dsimp only
      rw [mkRows, List.map_append, List.map_cons,
        map_noop _ a (fun r hr => if_neg (by have h3 := h2 r hr; omega)),
        map_noop _ (mkRows now (start + 1) os)
          (fun r hr => if_neg
            (by have h3 := (mkRows_mem now os (start + 1) r hr).2; omega))]
      simp
    simp only [List.length_cons, List.map_cons]
    rw [drain, hget]
    dsimp only
    rw [hupd2]
    have hstep := ih (a ++ [⟨start, jget o "id", status, dumps o, now, now⟩])
      (start + 1) nid
      (fun r hr => by
        rcases List.mem_append.mp hr with hA | hB
        · exact h1 r hA
        · rw [List.mem_singleton.mp hB]
          exact hs)
      (fun r hr => by
        rcases List.mem_append.mp hr with hA | hB
        · have h3 := h2 r hA
          omega
        · rw [List.mem_singleton.mp hB]
          exact Nat.lt_succ_self start)
    rw [List.append_assoc, List.singleton_append] at hstep
    rw [hstep, List.range'_succ]
    simp

/-- C1: `get_next_job` selects the pending row with the lowest id and returns
its `(job_id, parsed payload)`; when no row is pending it returns nothing
(the empty result) rather than raising; and jobs enqueued while the store is
empty are claimed by successive `get_next_job` calls in ascending id order
(FIFO) when each claim is followed by an `update_status` off `pending`. -/
theorem C1_fifo (status : String) (now : ℚ) (hs : status ≠ "pending") :
    (∀ st : Store, (∀ r ∈ st.rows, r.status ≠ "pending") → get_next_job st = none) ∧
    (∀ (st : Store) (i : Nat) (p : Option Json), get_next_job st = some (i, p) →
      ∃ r ∈ st.rows, r.id = i ∧ r.status = "pending" ∧ p = loads r.payload ∧
        ∀ r2 ∈ st.rows, r2.status = "pending" → i ≤ r2.id) ∧
    ∀ os : List Json,
      drain os.length (enqueue_all now emptyStore os) status now =
        (List.range' 1 os.length).zip (os.map some) := by
  refine ⟨fun st h => (get_next_job_none_iff st).mpr h, get_next_job_some,
    fun os => ?_⟩
  rw [enqueue_all_spec]
  show drain os.length ⟨[] ++ mkRows now 1 os, 1 + os.length⟩ status now = _
  exact drain_enqueue now status hs os [] 1 (1 + os.length)
    (fun r hr => absurd hr (List.not_mem_nil r))
    (fun r hr => absurd hr (List.not_mem_nil r))

/-- Closed instance of C1: two jobs enqueued on the empty store drain in
enqueue order with ids 1 and 2. -/
theorem C1_fifo_witness :
    drain 2 (enqueue_all 0 emptyStore [Json.null, Json.bool true]) "done" 0 =
      [(1, some Json.null), (2, some (Json.bool true))] := by
  have h := (C1_fifo "done" 0 (by decide)).2.2 [Json.null, Json.bool true]
  simpa [List.range'_succ] using h

/-- C10: enqueue/claim round trip — `add_job` serializes the order dict with
`json.dumps` and a following `get_next_job` that claims that row returns its
id together with `json.loads` of the payload, which is the original dict
unchanged.  The hypothesis states that the inserted row is the lowest-id
pending row. -/
theorem C10_roundtrip (st : Store) (d : Json) (now : ℚ)
    (h : ∀ r ∈ st.rows, r.status = "pending" → st.nextId < r.id) :
    get_next_job (add_job st d now) = some (st.nextId, some d) := by
  have h0 : (⟨st.nextId, jget d "id", "pending", dumps d, now, now⟩ : Row) ∈
      (add_job st d now).rows := by
    show _ ∈ st.rows ++ [(⟨st.nextId, jget d "id", "pending", dumps d, now, now⟩ : Row)]
    exact List.mem_append_right _ (List.mem_singleton.mpr rfl)
  have hlow : ∀ r ∈ (add_job st d now).rows, r.status = "pending" →
      r = (⟨st.nextId, jget d "id", "pending", dumps d, now, now⟩ : Row) ∨
        st.nextId < r.id := by
    intro r hr hp
    rcases List.mem_append.mp hr with hA | hB
    · exact Or.inr (h r hA hp)
    · exact Or.inl (List.mem_singleton.mp hB)
  have heq := get_next_job_lowest (add_job st d now)
    ⟨st.nextId, jget d "id", "pending", dumps d, now, now⟩ h0 rfl hlow
  rw [heq]
  show some (st.nextId, loads (dumps d)) = some (st.nextId, some d)
  rw [loads_dumps]

/-- Closed instance of C10: a one-key order dict survives the
serialize-on-insert / deserialize-on-claim round trip on the empty store. -/
theorem C10_roundtrip_witness :
    get_next_job (add_job emptyStore (Json.obj [("id", Json.int 7)]) 0) =
      some (1, some (Json.obj [("id", Json.int 7)])) :=
  C10_roundtrip emptyStore (Json.obj [("id", Json.int 7)]) 0
    (fun r hr => absurd hr (List.not_mem_nil r))

end PackChicken
